import Mathlib

/-!
Verification of the 2drender core against its specification.

The embedding below is a shallow model, in Lean 4, of the source files of the
repository:

* `Sched` embeds the cooperative batch scheduler (`src/unnamed/part_003`,
  class `Scheduler`, both surviving variants of the file).
* `GridM` embeds the Rect/Grid layer (`src/src/Grid/index.js`).
* `LineM` embeds the polyline layer (`src/src/Line/index.js`).
* `MarkerM` embeds the rotated-icon marker layer (`src/src/Marker/index.js`).
* `TextM` embeds the anchored-text layer (`src/src/Text/index.js`).

JavaScript numbers are modelled by `ℚ` (the repository performs only
arithmetic, comparisons and `Math.round` on them; no overflow or NaN
arithmetic is exercised on the modelled paths, and the single place where a
string reaches a numeric comparison is modelled explicitly by `jsToNumber`).
Opaque host capabilities (canvas rasterisation, `measureText`,
`isPointInStroke`, trigonometric tables) enter as explicit function
parameters, so every definition stays executable.
-/

/-- `Math.round` of JavaScript: round half towards positive infinity.
`Math.round(0.5) = 1`, `Math.round(-0.5) = 0`, `Math.round(2.5) = 3`. -/
def jsRound (x : ℚ) : ℤ := ⌊x + 1 / 2⌋

/-- Digits of a character list folded into a natural number. -/
def digitsToNat (l : List Char) : Nat :=
  l.foldl (fun acc c => acc * 10 + (c.toNat - '0'.toNat)) 0

/-- Parse an unsigned decimal literal (digits, optionally a dot and further
digits) into `ℚ`; anything else is NaN, rendered `none`. -/
def parseUnsigned (l : List Char) : Option ℚ :=
  match l.span Char.isDigit with
  | (ds, []) => if ds = [] then none else some (digitsToNat ds : ℚ)
  | (ds, '.' :: fs) =>
    if ds = [] ∧ fs = [] then none
    else if fs.all Char.isDigit then
      some ((digitsToNat ds : ℚ) +
        (digitsToNat fs : ℚ) / ((10 : ℚ) ^ fs.length))
    else none
  | _ => none

/-- JavaScript `ToNumber` on a string, restricted to plain decimal literals:
a string that is not a decimal literal converts to NaN, which the model
renders as `none`. -/
def jsToNumber (s : String) : Option ℚ :=
  match s.toList with
  | [] => some 0
  | '-' :: rest => (parseUnsigned rest).map Neg.neg
  | l => parseUnsigned l

/-- JavaScript `x <= s` with a number on the left and a string on the right:
the string is converted with `ToNumber`; every comparison with NaN is false. -/
def jsLeNumStr (x : ℚ) (s : String) : Bool :=
  match jsToNumber s with
  | some v => decide (x ≤ v)
  | none => false

/-- JavaScript `n + s` with a number and a string: string concatenation of
the decimal rendering of the number with the string. -/
def jsConcatNumStr (n : ℚ) (s : String) : String :=
  toString n ++ s

/-- Host trigonometric capability: `Math.cos` and `Math.sin`. The embedding
treats them as an opaque deterministic oracle so that all definitions remain
executable over `ℚ`. -/
structure TrigOracle where
  cos : ℚ → ℚ
  sin : ℚ → ℚ

/-- A concrete oracle agreeing with real cosine and sine at angle `0`;
used to evaluate the rotation-free instances demanded by the specification. -/
def trigAtZero : TrigOracle where
  cos := fun q => if q = 0 then 1 else 0
  sin := fun _ => 0

namespace Sched

/-- Reason carried by a rejected batch promise. The source only ever calls
`this.reject('Cancelled')`; the `error` constructor exists so that the claim
that processing failures reject the future is statable. -/
inductive RejectReason (ε : Type) where
  | cancelled : RejectReason ε
  | failure (e : ε) : RejectReason ε
  deriving DecidableEq

/-- Settlement state of one JavaScript promise returned by `execute`. -/
inductive Outcome (β ε : Type) where
  | pending : Outcome β ε
  | resolved (rs : List β) : Outcome β ε
  | rejected (r : RejectReason ε) : Outcome β ε
  deriving DecidableEq

/-- State of one `Scheduler` instance (`src/unnamed/part_003`) together with
the promises it has handed out and its interactions with the host:

* `id` mirrors `this.id` (a registration number while a task is scheduled);
* `registered` records whether a live, not yet fired, idle-callback
  registration exists (a `requestIdleCallback` registration fires once);
* `array`, `currentIndex`, `result` mirror the fields of the same names
  (the second variant of the file copies the array and shifts it; it feeds
  the callback the same successive elements, modelled by the index);
* `callback` mirrors `this.callback`; a JavaScript function that may throw
  is embedded as `α → Except ε β`;
* `promise` is the index into `promises` of the promise currently bound to
  `this.resolve` and `this.reject`;
* `cancelLog` lists the arguments of `window.cancelIdleCallback` calls;
* `callLog` lists the arguments fed to the callback, in call order;
* `escaped` lists errors thrown by the callback, which the scheduler never
  catches: they abort the idle callback and leak to the host unhandled. -/
structure Scheduler (α β ε : Type) where
  id : Option ℕ
  registered : Bool
  nextId : ℕ
  array : List α
  currentIndex : ℕ
  callback : α → Except ε β
  result : List β
  promise : ℕ
  promises : List (Outcome β ε)
  cancelLog : List ℕ
  callLog : List α
  escaped : List ε

/-- Settle promise `i` with outcome `o`: a JavaScript promise settles at most
once, so an already settled promise is left untouched. -/
def settle {β ε : Type} (ps : List (Outcome β ε)) (i : ℕ) (o : Outcome β ε) :
    List (Outcome β ε) :=
  match ps[i]? with
  | some Outcome.pending => ps.set i o
  | _ => ps

/-- `new Scheduler()`: no registration, no promises. The callback field is a
placeholder; it is unreachable before the first `execute` call because no
idle callback is registered. -/
def new (α β ε : Type) [Inhabited β] : Scheduler α β ε where
  id := none
  registered := false
  nextId := 0
  array := []
  currentIndex := 0
  callback := fun _ => Except.ok default
  result := []
  promise := 0
  promises := []
  cancelLog := []
  callLog := []
  escaped := []

/-- `Scheduler.execute(array, callback)` (part_003 lines 17-54 and 121-160):
store the new batch, and if `this.id` is set, call
`window.cancelIdleCallback(this.id)` and reject the stored promise with
the `Cancelled` signal; then register the idle callback and hand out a
fresh pending promise whose resolve and reject become the stored ones.
The first variant registers before returning; the second defers the
registration through `window.setTimeout`, which only moves it a little
later on the same host queue, before any idle cycle can fire — both are
modelled by registering here. -/
def execute {α β ε : Type} (s : Scheduler α β ε) (array : List α)
    (callback : α → Except ε β) : Scheduler α β ε :=
  let s1 : Scheduler α β ε :=
    { s with array := array, currentIndex := 0, callback := callback,
             result := [] }
  let s2 : Scheduler α β ε :=
    match s1.id with
    | some oldId =>
      { s1 with registered := false,
                cancelLog := s1.cancelLog ++ [oldId],
                promises :=
                  settle s1.promises s1.promise
                    (Outcome.rejected RejectReason.cancelled) }
    | none => s1
  let s3 : Scheduler α β ε :=
    { s2 with id := some s2.nextId, registered := true,
              nextId := s2.nextId + 1 }
  { s3 with promise := s3.promises.length,
            promises := s3.promises ++ [Outcome.pending] }

/-- Body of `this.requestIdleCallback` (part_003 lines 59-101 and 165-205):
the while loop. `time k` models the `k`-th call of
`IdleDeadline.timeRemaining()` in this invocation being nonzero. When the
items are exhausted, clear `this.id` and resolve; when the budget is spent,
re-register for the next frame; otherwise run the callback on the current
item. A callback throw aborts the invocation: the error is never caught, so
the loop neither continues, re-registers, nor settles the batch promise.
`fuel` bounds the loop and exceeds the number of remaining items whenever
the function is entered through `fireIdle`. -/
def idleCb {α β ε : Type} (time : ℕ → Bool) : ℕ → ℕ → Scheduler α β ε →
    Scheduler α β ε
  | _, 0, s => s
  | k, fuel + 1, s =>
    match s.array.drop s.currentIndex with
    | [] =>
      { s with id := none,
               promises := settle s.promises s.promise
                 (Outcome.resolved s.result) }
    | a :: _ =>
      if time k then
        match s.callback a with
        | Except.ok b =>
          idleCb time (k + 1) fuel
            { s with result := s.result ++ [b],
                     currentIndex := s.currentIndex + 1,
                     callLog := s.callLog ++ [a] }
        | Except.error e => { s with escaped := s.escaped ++ [e] }
      else
        { s with id := some s.nextId, registered := true,
                 nextId := s.nextId + 1 }

/-- One idle cycle of the host: if a live registration exists, it fires
(owning registration consumed) and the loop body runs against an
`IdleDeadline` whose successive budget checks are given by `time`. -/
def fireIdle {α β ε : Type} (time : ℕ → Bool) (s : Scheduler α β ε) :
    Scheduler α β ε :=
  if s.registered then
    idleCb time 0 (s.array.length - s.currentIndex + 1)
      { s with registered := false }
  else s

/-- Run a sequence of idle cycles, each with its own budget function. -/
def runCycles {α β ε : Type} : List (ℕ → Bool) → Scheduler α β ε →
    Scheduler α β ε
  | [], s => s
  | t :: ts, s => runCycles ts (fireIdle t s)

/-- A callback that never throws, returning `f` applied to the item. -/
def okf {α β ε : Type} (f : α → β) : α → Except ε β :=
  fun a => Except.ok (f a)

end Sched

namespace Sched

/-- Results of a callback on a list of items when every call succeeds;
`none` as soon as one call throws. -/
def okPrefix {α β ε : Type} (fn : α → Except ε β) : List α → Option (List β)
  | [] => some []
  | a :: as =>
    match fn a with
    | Except.ok b => (okPrefix fn as).map (fun rs => b :: rs)
    | Except.error _ => none

lemma okPrefix_okf {α β ε : Type} (f : α → β) :
    ∀ l : List α, okPrefix (ε := ε) (okf f) l = some (l.map f) := by
  intro l
  induction l with
  | nil => rfl
  | cons a as ih => simp [okPrefix, okf, ih]

lemma okPrefix_append_ok {α β ε : Type} {fn : α → Except ε β} {l : List α}
    {rs : List β} {a : α} {b : β} (h : okPrefix fn l = some rs)
    (hb : fn a = Except.ok b) : okPrefix fn (l ++ [a]) = some (rs ++ [b]) := by
  induction l generalizing rs with
  | nil =>
    simp [okPrefix] at h
    subst h
    simp [okPrefix, hb]
  | cons x xs ih =>
    rw [List.cons_append]
    simp only [okPrefix] at h ⊢
    cases hx : fn x with
    | ok bx =>
      rw [hx] at h
      obtain ⟨rs0, hrs0, hcons⟩ := Option.map_eq_some'.mp h
      rw [ih hrs0]
      dsimp only
      rw [Option.map_some', ← hcons, List.cons_append]
    | error e =>
      rw [hx] at h
      exact absurd h (by simp)

lemma settle_length {β ε : Type} (ps : List (Outcome β ε)) (i : ℕ)
    (o : Outcome β ε) : (settle ps i o).length = ps.length := by
  unfold settle
  split <;> simp

lemma settle_get_pending {β ε : Type} {ps : List (Outcome β ε)} {i : ℕ}
    (o : Outcome β ε) (h : ps[i]? = some Outcome.pending) :
    (settle ps i o)[i]? = some o := by
  have hlt : i < ps.length := (List.getElem?_eq_some.mp h).1
  unfold settle
  rw [h]
  simp [List.getElem?_set, hlt]

lemma settle_get_ne {β ε : Type} (ps : List (Outcome β ε)) (i : ℕ)
    (o : Outcome β ε) {j : ℕ} (h : i ≠ j) : (settle ps i o)[j]? = ps[j]? := by
  unfold settle
  split
  · simp [List.getElem?_set, h]
  · rfl

/-- Invariant of one batch between idle cycles: the batch fields are fixed,
the buffered result is the callback output on the processed prefix, and the
batch promise is pending with a live registration, resolved with all items
processed, or pending forever after a callback error escaped. `E` and `L`
are the escaped-error and call logs at batch start. -/
def BatchInv {α β ε : Type} (items : List α) (fn : α → Except ε β) (p : ℕ)
    (E : List ε) (L : List α) (s : Scheduler α β ε) : Prop :=
  s.array = items ∧ s.callback = fn ∧ s.promise = p ∧
  s.currentIndex ≤ items.length ∧
  okPrefix fn (items.take s.currentIndex) = some s.result ∧
  s.callLog = L ++ items.take s.currentIndex ∧
  ((s.promises[p]? = some Outcome.pending ∧ s.registered = true ∧
      s.escaped = E) ∨
   (s.promises[p]? = some (Outcome.resolved s.result) ∧ s.registered = false ∧
      s.currentIndex = items.length ∧ s.escaped = E) ∨
   (∃ e, s.promises[p]? = some Outcome.pending ∧ s.registered = false ∧
      s.escaped = E ++ [e]))

lemma idleCb_inv {α β ε : Type} (items : List α) (fn : α → Except ε β) (p : ℕ)
    (E : List ε) (L : List α) (time : ℕ → Bool) :
    ∀ (fuel k : ℕ) (s : Scheduler α β ε),
      s.array = items → s.callback = fn → s.promise = p →
      s.currentIndex ≤ items.length →
      okPrefix fn (items.take s.currentIndex) = some s.result →
      s.callLog = L ++ items.take s.currentIndex →
      s.promises[p]? = some Outcome.pending → s.escaped = E →
      s.registered = false →
      items.length - s.currentIndex < fuel →
      BatchInv items fn p E L (idleCb time k fuel s) := by
  intro fuel
  induction fuel with
  | zero => intro k s _ _ _ _ _ _ _ _ _ hf; omega
  | succ n ih =>
    intro k s ha hc hp hle hok hlog hpend hesc hreg hf
    rw [idleCb]
    cases hd : s.array.drop s.currentIndex with
    | nil =>
      dsimp only
      have hge : s.array.length ≤ s.currentIndex := by
        rwa [List.drop_eq_nil_iff] at hd
      have heq : s.currentIndex = items.length := by
        rw [ha] at hge
        omega
      have hpend2 : s.promises[s.promise]? = some Outcome.pending := by
        rw [hp]
        exact hpend
      refine ⟨ha, hc, hp, hle, hok, hlog, Or.inr (Or.inl ⟨?_, hreg, heq, hesc⟩)⟩
      rw [← hp]
      exact settle_get_pending _ hpend2
    | cons a rest =>
      dsimp only
      have hlt : s.currentIndex < items.length := by
        by_contra hcon
        push_neg at hcon
        rw [List.drop_eq_nil_of_le (by rw [ha]; exact hcon)] at hd
        exact List.noConfusion hd
      have hget : s.array[s.currentIndex]? = some a := by
        rw [← List.head?_drop, hd, List.head?_cons]
      have htake : items.take (s.currentIndex + 1) =
          items.take s.currentIndex ++ [a] := by
        rw [← ha, List.take_succ, hget]
        rfl
      by_cases ht : time k = true
      · rw [if_pos ht]
        cases hcb : s.callback a with
        | ok b =>
          refine ih (k + 1) _ ha hc hp (by dsimp only; omega) ?_ ?_ hpend hesc hreg (by dsimp only; omega)
          · show okPrefix fn (items.take (s.currentIndex + 1)) =
              some (s.result ++ [b])
            rw [htake]
            exact okPrefix_append_ok hok (by rw [← hc]; exact hcb)
          · show s.callLog ++ [a] = L ++ items.take (s.currentIndex + 1)
            rw [htake, hlog, List.append_assoc]
        | error e =>
          exact ⟨ha, hc, hp, hle, hok, hlog,
            Or.inr (Or.inr ⟨e, hpend, hreg, by rw [hesc]⟩)⟩
      · rw [if_neg ht]
        exact ⟨ha, hc, hp, hle, hok, hlog, Or.inl ⟨hpend, rfl, hesc⟩⟩

lemma fireIdle_inv {α β ε : Type} {items : List α} {fn : α → Except ε β}
    {p : ℕ} {E : List ε} {L : List α} (time : ℕ → Bool)
    {s : Scheduler α β ε} (h : BatchInv items fn p E L s) :
    BatchInv items fn p E L (fireIdle time s) := by
  obtain ⟨ha, hc, hp, hle, hok, hlog, hcase⟩ := h
  rw [fireIdle]
  rcases hcase with ⟨hpend, hreg, hesc⟩ | ⟨hres, hreg, hidx, hesc⟩ |
    ⟨e, hpend, hreg, hesc⟩
  · rw [if_pos hreg]
    refine idleCb_inv items fn p E L time _ 0 _ ha hc hp hle hok hlog hpend
      hesc rfl ?_
    dsimp only
    rw [← ha]
    omega
  · rw [if_neg (by rw [hreg]; exact Bool.false_ne_true)]
    exact ⟨ha, hc, hp, hle, hok, hlog, Or.inr (Or.inl ⟨hres, hreg, hidx, hesc⟩)⟩
  · rw [if_neg (by rw [hreg]; exact Bool.false_ne_true)]
    exact ⟨ha, hc, hp, hle, hok, hlog, Or.inr (Or.inr ⟨e, hpend, hreg, hesc⟩)⟩

lemma runCycles_inv {α β ε : Type} {items : List α} {fn : α → Except ε β}
    {p : ℕ} {E : List ε} {L : List α} :
    ∀ (ts : List (ℕ → Bool)) (s : Scheduler α β ε),
      BatchInv items fn p E L s → BatchInv items fn p E L (runCycles ts s) := by
  intro ts
  induction ts with
  | nil => intro s h; exact h
  | cons t ts ih => intro s h; exact ih _ (fireIdle_inv t h)

lemma execute_fields {α β ε : Type} (s : Scheduler α β ε) (items : List α)
    (fn : α → Except ε β) :
    (execute s items fn).array = items ∧
    (execute s items fn).callback = fn ∧
    (execute s items fn).promise = s.promises.length ∧
    (execute s items fn).currentIndex = 0 ∧
    (execute s items fn).result = [] ∧
    (execute s items fn).registered = true ∧
    (execute s items fn).callLog = s.callLog ∧
    (execute s items fn).escaped = s.escaped ∧
    (execute s items fn).promises[(execute s items fn).promise]? =
      some Outcome.pending := by
  unfold execute
  cases s.id <;> simp [settle_length]

lemma execute_inv {α β ε : Type} (s : Scheduler α β ε) (items : List α)
    (fn : α → Except ε β) :
    BatchInv items fn (execute s items fn).promise s.escaped s.callLog
      (execute s items fn) := by
  obtain ⟨ha, hc, hp, hidx, hres, hreg, hlog, hesc, hpend⟩ :=
    execute_fields s items fn
  refine ⟨ha, hc, rfl, ?_, ?_, ?_, Or.inl ⟨hpend, hreg, hesc⟩⟩
  · rw [hidx]
    exact Nat.zero_le _
  · rw [hidx, hres, List.take_zero]
    rfl
  · rw [hidx, hlog, List.take_zero, List.append_nil]

end Sched

namespace Sched

lemma idleCb_allTime {α β ε : Type} (f : α → β) :
    ∀ (fuel k : ℕ) (s : Scheduler α β ε),
      s.callback = okf f →
      s.promises[s.promise]? = some Outcome.pending →
      s.array.length - s.currentIndex < fuel →
      (idleCb (fun _ => true) k fuel s).promises[s.promise]? =
        some (Outcome.resolved
          (s.result ++ (s.array.drop s.currentIndex).map f)) := by
  intro fuel
  induction fuel with
  | zero => intro k s _ _ hf; omega
  | succ n ih =>
    intro k s hc hpend hf
    rw [idleCb]
    cases hd : s.array.drop s.currentIndex with
    | nil =>
      dsimp only
      rw [List.map_nil, List.append_nil]
      exact settle_get_pending _ hpend
    | cons a rest =>
      dsimp only
      rw [if_pos rfl]
      have hcb : s.callback a = Except.ok (f a) := by rw [hc]; rfl
      rw [hcb]
      have hlt : s.currentIndex < s.array.length := by
        by_contra hcon
        push_neg at hcon
        rw [List.drop_eq_nil_of_le hcon] at hd
        exact List.noConfusion hd
      have hdrop : s.array.drop (s.currentIndex + 1) = rest := by
        rw [← List.tail_drop, hd, List.tail_cons]
      have := ih (k + 1)
        { s with result := s.result ++ [f a],
                 currentIndex := s.currentIndex + 1,
                 callLog := s.callLog ++ [a] }
        hc hpend (by dsimp only; omega)
      dsimp only at this
      rw [this, hdrop, List.map_cons, List.append_assoc,
        List.singleton_append]

lemma idleCb_other {α β ε : Type} (time : ℕ → Bool) :
    ∀ (fuel k : ℕ) (s : Scheduler α β ε) (j : ℕ), j ≠ s.promise →
      (idleCb time k fuel s).promises[j]? = s.promises[j]? ∧
      (idleCb time k fuel s).promise = s.promise := by
  intro fuel
  induction fuel with
  | zero => intro k s j _; exact ⟨rfl, rfl⟩
  | succ n ih =>
    intro k s j hj
    rw [idleCb]
    cases hd : s.array.drop s.currentIndex with
    | nil =>
      dsimp only
      exact ⟨settle_get_ne _ _ _ (fun h => hj h.symm), rfl⟩
    | cons a rest =>
      dsimp only
      by_cases ht : time k = true
      · rw [if_pos ht]
        cases hcb : s.callback a with
        | ok b => exact ih (k + 1) _ j hj
        | error e => exact ⟨rfl, rfl⟩
      · rw [if_neg ht]
        exact ⟨rfl, rfl⟩

lemma fireIdle_other {α β ε : Type} (time : ℕ → Bool) (s : Scheduler α β ε)
    (j : ℕ) (hj : j ≠ s.promise) :
    (fireIdle time s).promises[j]? = s.promises[j]? ∧
    (fireIdle time s).promise = s.promise := by
  rw [fireIdle]
  by_cases hr : s.registered = true
  · rw [if_pos hr]
    exact idleCb_other time _ 0 _ j hj
  · rw [if_neg hr]
    exact ⟨rfl, rfl⟩

lemma execute_some_fields {α β ε : Type} (s : Scheduler α β ε) (oldId : ℕ)
    (items : List α) (fn : α → Except ε β) (hid : s.id = some oldId) :
    (execute s items fn).promises =
      settle s.promises s.promise (Outcome.rejected RejectReason.cancelled) ++
        [Outcome.pending] ∧
    (execute s items fn).cancelLog = s.cancelLog ++ [oldId] ∧
    (execute s items fn).promise = s.promises.length := by
  unfold execute
  dsimp only
  rw [hid]
  exact ⟨rfl, rfl, by dsimp only; rw [settle_length]⟩

end Sched

/-- **C1.** If `execute` is called again while a previous batch is in flight
(a registration id is stored and its stored batch promise is still pending),
the previous idle registration is cancelled (its id is passed to
`window.cancelIdleCallback`) and the previous future is rejected with the
`Cancelled` signal before the new batch starts; the second future is a fresh
pending promise and, once the idle callback runs the new batch to
completion, it resolves with a result sequence whose length equals the
second input item count. -/
theorem scheduler_supersession_C1 {α β : Type} (s : Sched.Scheduler α β Unit)
    (oldId : ℕ) (items2 : List α) (f : α → β) (hid : s.id = some oldId)
    (hpend : s.promises[s.promise]? = some Sched.Outcome.pending) :
    (Sched.execute s items2 (Sched.okf f)).promises[s.promise]? =
      some (Sched.Outcome.rejected Sched.RejectReason.cancelled) ∧
    (Sched.execute s items2 (Sched.okf f)).cancelLog =
      s.cancelLog ++ [oldId] ∧
    (Sched.execute s items2 (Sched.okf f)).promise ≠ s.promise ∧
    (Sched.execute s items2 (Sched.okf f)).promises[
      (Sched.execute s items2 (Sched.okf f)).promise]? =
      some Sched.Outcome.pending ∧
    (Sched.fireIdle (fun _ => true)
        (Sched.execute s items2 (Sched.okf f))).promises[
      (Sched.execute s items2 (Sched.okf f)).promise]? =
      some (Sched.Outcome.resolved (items2.map f)) ∧
    (items2.map f).length = items2.length ∧
    (Sched.fireIdle (fun _ => true)
        (Sched.execute s items2 (Sched.okf f))).promises[s.promise]? =
      some (Sched.Outcome.rejected Sched.RejectReason.cancelled) := by
  have hplt : s.promise < s.promises.length :=
    (List.getElem?_eq_some.mp hpend).1
  obtain ⟨hproms, hclog, hprom⟩ :=
    Sched.execute_some_fields s oldId items2 (Sched.okf f) hid
  obtain ⟨ha, hc, _, hidx, hres, hreg, _, _, hpend2⟩ :=
    Sched.execute_fields s items2 (Sched.okf f)
  have hne : (Sched.execute s items2 (Sched.okf f)).promise ≠ s.promise := by
    rw [hprom]
    omega
  have h1 : (Sched.execute s items2 (Sched.okf f)).promises[s.promise]? =
      some (Sched.Outcome.rejected Sched.RejectReason.cancelled) := by
    rw [hproms, List.getElem?_append,
      if_pos (by rw [Sched.settle_length]; exact hplt)]
    exact Sched.settle_get_pending _ hpend
  have hfire : Sched.fireIdle (fun _ => true)
      (Sched.execute s items2 (Sched.okf f)) =
      Sched.idleCb (fun _ => true) 0
        ((Sched.execute s items2 (Sched.okf f)).array.length -
          (Sched.execute s items2 (Sched.okf f)).currentIndex + 1)
        { Sched.execute s items2 (Sched.okf f) with registered := false } := by
    rw [Sched.fireIdle, if_pos hreg]
  have h5 : (Sched.fireIdle (fun _ => true)
      (Sched.execute s items2 (Sched.okf f))).promises[
      (Sched.execute s items2 (Sched.okf f)).promise]? =
      some (Sched.Outcome.resolved (items2.map f)) := by
    rw [hfire]
    have := Sched.idleCb_allTime f
      ((Sched.execute s items2 (Sched.okf f)).array.length -
        (Sched.execute s items2 (Sched.okf f)).currentIndex + 1) 0
      { Sched.execute s items2 (Sched.okf f) with registered := false }
      hc hpend2 (by dsimp only; omega)
    dsimp only at this
    rw [this, hres, ha, hidx, List.drop_zero, List.nil_append]
  have h7 : (Sched.fireIdle (fun _ => true)
      (Sched.execute s items2 (Sched.okf f))).promises[s.promise]? =
      some (Sched.Outcome.rejected Sched.RejectReason.cancelled) := by
    rw [(Sched.fireIdle_other (fun _ => true) _ s.promise
      (fun h => hne h.symm)).1]
    exact h1
  exact ⟨h1, hclog, hne, hpend2, h5, by rw [List.length_map], h7⟩

/-- **C1 witness.** Two `execute` calls in immediate succession on one
scheduler: the first future is rejected with `Cancelled`, its registration
id `0` is cancelled, and the second future resolves with one result per
input item. -/
theorem scheduler_supersession_C1_witness :
    (Sched.execute (Sched.execute (Sched.new ℕ ℕ Unit) [7]
        (Sched.okf (fun n => n * 2))) [1, 2, 3]
        (Sched.okf (fun n => n * 2))).promises[
      (Sched.execute (Sched.new ℕ ℕ Unit) [7]
        (Sched.okf (fun n => n * 2))).promise]? =
      some (Sched.Outcome.rejected Sched.RejectReason.cancelled) ∧
    (Sched.fireIdle (fun _ => true)
        (Sched.execute (Sched.execute (Sched.new ℕ ℕ Unit) [7]
          (Sched.okf (fun n => n * 2))) [1, 2, 3]
          (Sched.okf (fun n => n * 2)))).promises[
      (Sched.execute (Sched.execute (Sched.new ℕ ℕ Unit) [7]
          (Sched.okf (fun n => n * 2))) [1, 2, 3]
          (Sched.okf (fun n => n * 2))).promise]? =
      some (Sched.Outcome.resolved ([1, 2, 3].map (fun n => n * 2))) ∧
    ([1, 2, 3].map (fun n : ℕ => n * 2)).length = [1, 2, 3].length := by
  have h := scheduler_supersession_C1
    (Sched.execute (Sched.new ℕ ℕ Unit) [7] (Sched.okf (fun n => n * 2)))
    0 [1, 2, 3] (fun n => n * 2) rfl rfl
  exact ⟨h.1, h.2.2.2.2.1, h.2.2.2.2.2.1⟩

/-- **C2.** A batch executed on a fresh scheduler, with a callback that never
throws, resolves only with the callback results in exactly input order, and
the callback has then been invoked with each item exactly once, in input
order, over any slicing of idle time. In the embedding the per-item
asynchronous latency of the callback is invisible because the source awaits
each call before advancing, so processing is strictly sequential. -/
theorem scheduler_order_C2 {α β : Type} [Inhabited β] (items : List α)
    (f : α → β) (ts : List (ℕ → Bool)) (rs : List β)
    (h : (Sched.runCycles ts (Sched.execute (Sched.new α β Unit) items
        (Sched.okf f))).promises[0]? = some (Sched.Outcome.resolved rs)) :
    rs = items.map f ∧
    (Sched.runCycles ts (Sched.execute (Sched.new α β Unit) items
        (Sched.okf f))).callLog = items := by
  have hp0 : (Sched.execute (Sched.new α β Unit) items
      (Sched.okf f)).promise = 0 :=
    (Sched.execute_fields (Sched.new α β Unit) items (Sched.okf f)).2.2.1
  have hinv := Sched.runCycles_inv ts _
    (Sched.execute_inv (Sched.new α β Unit) items (Sched.okf f))
  rw [hp0] at hinv
  obtain ⟨_, _, _, hle, hok, hlog, hcase⟩ := hinv
  rcases hcase with ⟨hpend, _, _⟩ | ⟨hres, _, hidx, _⟩ | ⟨e, hpend, _, _⟩
  · rw [hpend] at h
    exact absurd (Option.some.inj h) (by intro hco; cases hco)
  · rw [hres] at h
    have hrs := Sched.Outcome.resolved.inj (Option.some.inj h)
    rw [hidx, List.take_length] at hok hlog
    rw [Sched.okPrefix_okf] at hok
    refine ⟨?_, by rw [hlog]; rfl⟩
    rw [← hrs, ← Option.some.inj hok]
  · rw [hpend] at h
    exact absurd (Option.some.inj h) (by intro hco; cases hco)

/-- **C2 witness.** A three-item batch run in one generous idle cycle
resolves with the mapped results in input order and the call log equals the
input list. -/
theorem scheduler_order_C2_witness :
    [2, 3, 4] = [1, 2, 3].map (fun n : ℕ => n + 1) ∧
    (Sched.runCycles [fun _ => true]
      (Sched.execute (Sched.new ℕ ℕ Unit) [1, 2, 3]
        (Sched.okf (fun n => n + 1)))).callLog = [1, 2, 3] :=
  scheduler_order_C2 [1, 2, 3] (fun n => n + 1) [fun _ => true] [2, 3, 4] rfl

/-- Concrete scheduler run in which the callback throws on the only item:
used to refute claim C3. -/
def c3run : Sched.Scheduler ℕ ℕ String :=
  Sched.runCycles [fun _ => true]
    (Sched.execute (Sched.new ℕ ℕ String) [0]
      (fun _ => Except.error "boom"))

/-- **C3 counterexample.** The callback throws while processing the only
item of a batch: the error escapes the scheduler unhandled (it is never
caught), but the batch future is NOT rejected with it — it stays pending
forever, contradicting the claim that such errors propagate to the batch
future as a rejection. -/
theorem scheduler_error_C3_cex :
    c3run.promises[0]? = some Sched.Outcome.pending ∧
    c3run.escaped = ["boom"] ∧
    c3run.promises[0]? ≠
      some (Sched.Outcome.rejected (Sched.RejectReason.failure "boom")) := by
  refine ⟨rfl, rfl, ?_⟩
  intro hco
  rw [(rfl : c3run.promises[0]? = some Sched.Outcome.pending)] at hco
  cases Option.some.inj hco

/-- **C3 (amended).** The scheduler never catches errors raised by the
callback, but they do not reach the batch future: over any idle-time
schedule, a single batch on a fresh scheduler never rejects its future at
all (reject is only ever invoked with `Cancelled`, on supersession); when a
callback error escapes, processing halts (no re-registration) and the
future remains pending forever. -/
theorem scheduler_error_C3 {α β ε : Type} [Inhabited β] (items : List α)
    (fn : α → Except ε β) (ts : List (ℕ → Bool)) :
    (∀ r, (Sched.runCycles ts (Sched.execute (Sched.new α β ε) items
        fn)).promises[0]? ≠ some (Sched.Outcome.rejected r)) ∧
    ((Sched.runCycles ts (Sched.execute (Sched.new α β ε) items
        fn)).escaped = [] ∨
      ∃ e, (Sched.runCycles ts (Sched.execute (Sched.new α β ε) items
          fn)).escaped = [e] ∧
        (Sched.runCycles ts (Sched.execute (Sched.new α β ε) items
          fn)).promises[0]? = some Sched.Outcome.pending ∧
        (Sched.runCycles ts (Sched.execute (Sched.new α β ε) items
          fn)).registered = false) := by
  have hp0 : (Sched.execute (Sched.new α β ε) items fn).promise = 0 :=
    (Sched.execute_fields (Sched.new α β ε) items fn).2.2.1
  have hinv := Sched.runCycles_inv ts _
    (Sched.execute_inv (Sched.new α β ε) items fn)
  rw [hp0] at hinv
  obtain ⟨_, _, _, _, _, _, hcase⟩ := hinv
  rcases hcase with ⟨hpend, _, hesc⟩ | ⟨hres, _, _, hesc⟩ | ⟨e, hpend, hreg, hesc⟩
  · constructor
    · intro r hco
      rw [hpend] at hco
      cases Option.some.inj hco
    · exact Or.inl (hesc.trans rfl)
  · constructor
    · intro r hco
      rw [hres] at hco
      cases Option.some.inj hco
    · exact Or.inl (hesc.trans rfl)
  · constructor
    · intro r hco
      rw [hpend] at hco
      cases Option.some.inj hco
    · refine Or.inr ⟨e, ?_, hpend, hreg⟩
      rw [hesc]
      rfl

/-- **C3 amended witness.** The amended statement evaluated on the concrete
run of `scheduler_error_C3_cex`: no rejection, and the escaped error leaves
the future pending with no live registration. -/
theorem scheduler_error_C3_witness :
    (∀ r, (Sched.runCycles [fun _ => true]
        (Sched.execute (Sched.new ℕ ℕ String) [0]
          (fun _ => Except.error "boom"))).promises[0]? ≠
        some (Sched.Outcome.rejected r)) ∧
    ((Sched.runCycles [fun _ => true]
        (Sched.execute (Sched.new ℕ ℕ String) [0]
          (fun _ => Except.error "boom"))).escaped = [] ∨
      ∃ e, (Sched.runCycles [fun _ => true]
          (Sched.execute (Sched.new ℕ ℕ String) [0]
            (fun _ => Except.error "boom"))).escaped = [e] ∧
        (Sched.runCycles [fun _ => true]
          (Sched.execute (Sched.new ℕ ℕ String) [0]
            (fun _ => Except.error "boom"))).promises[0]? =
          some Sched.Outcome.pending ∧
        (Sched.runCycles [fun _ => true]
          (Sched.execute (Sched.new ℕ ℕ String) [0]
            (fun _ => Except.error "boom"))).registered = false) :=
  scheduler_error_C3 [0] (fun _ => Except.error "boom") [fun _ => true]

namespace GridM

/-- Raster fragment returned by `Grid.renderOffscreen`
(src/src/Grid/index.js lines 79-106). The offscreen rasterisation is an
opaque deterministic canvas capability whose pixel content is a function of
exactly these inputs, so the model represents the fragment by the record of
the inputs. -/
structure GridImage where
  borderColor : Option String
  color : String
  dpr : ℚ
  height : ℤ
  width : ℤ
  deriving DecidableEq

/-- Render properties persisted on a grid item
(src/src/Grid/index.js lines 26-33): the rounded values actually drawn. -/
structure GridRenderProps where
  borderColor : Option String
  color : String
  height : ℤ
  origin : ℤ × ℤ
  width : ℤ
  deriving DecidableEq

/-- One grid item. `height` and `width` are optional (default 0 at the
render call site); `renderProps` is absent until the first render. -/
structure GridItem where
  borderColor : Option String := none
  color : String
  height : Option ℚ := none
  origin : ℚ × ℚ
  width : Option ℚ := none
  renderProps : Option GridRenderProps := none
  deriving DecidableEq

/-- JavaScript template interpolation of a possibly undefined value. -/
def strOrUndefined : Option String → String
  | some s => s
  | none => "undefined"

/-- The cache key string (src/src/Grid/index.js lines 46-48): the
comma-joined width, height, color and borderColor of the rounded render
properties. -/
def cacheKey (rp : GridRenderProps) : String :=
  toString rp.width ++ "," ++ toString rp.height ++ "," ++ rp.color ++ "," ++
    strOrUndefined rp.borderColor

/-- `Grid.renderOffscreen` (lines 79-106): produce the raster fragment for
one style; deterministic in its inputs. -/
def renderOffscreen (borderColor : Option String) (color : String) (dpr : ℚ)
    (height width : ℤ) : GridImage :=
  { borderColor := borderColor, color := color, dpr := dpr, height := height,
    width := width }

/-- Mutable canvas-side state of one Grid layer: the style cache (a plain
object, empty at construction, line 118), the log of offscreen raster
productions and the log of `putImageData` calls. -/
structure GridState where
  cache : List (String × GridImage) := []
  prods : List (String × GridImage) := []
  puts : List (GridImage × ℚ × ℚ) := []
  deriving DecidableEq

/-- `Grid.render` (static, lines 11-74): round height, origin and width,
persist the render properties on the item, skip the draw when the rounded
width or height is 0, otherwise fetch the fragment from the cache by its
key (producing and storing it on a miss) and put it at `origin * dpr`. -/
def render (st : GridState) (item : GridItem) (borderColor : Option String)
    (color : String) (dpr : ℚ) (height : ℚ) (origin : ℚ × ℚ) (width : ℚ) :
    GridState × GridItem :=
  let internalHeight := jsRound height
  let internalOrigin := (jsRound origin.1, jsRound origin.2)
  let internalWidth := jsRound width
  let renderProps : GridRenderProps :=
    { borderColor := borderColor, color := color, height := internalHeight,
      origin := internalOrigin, width := internalWidth }
  let item2 := { item with renderProps := some renderProps }
  if renderProps.width = 0 ∨ renderProps.height = 0 then (st, item2)
  else
    let key := cacheKey renderProps
    match st.cache.lookup key with
    | some image =>
      ({ st with
          puts := st.puts ++
            [(image, (internalOrigin.1 : ℚ) * dpr,
              (internalOrigin.2 : ℚ) * dpr)] }, item2)
    | none =>
      let image := renderOffscreen borderColor color dpr renderProps.height
        renderProps.width
      ({ st with
          cache := st.cache ++ [(key, image)],
          prods := st.prods ++ [(key, image)],
          puts := st.puts ++
            [(image, (internalOrigin.1 : ℚ) * dpr,
              (internalOrigin.2 : ℚ) * dpr)] }, item2)

/-- Per-item callback passed by `Grid.prototype.render` to the scheduler
(lines 200-221): default height and width to 0, write the defaults back to
the item, then call the static render. -/
def renderOne (dpr : ℚ) (st : GridState) (item : GridItem) :
    GridState × GridItem :=
  let height := item.height.getD 0
  let width := item.width.getD 0
  let item1 := { item with height := some height, width := some width }
  render st item1 item.borderColor item.color dpr height item.origin width

/-- One full render pass over the data list, item by item in order (the
scheduler applies the callback to each item exactly once, in order, per the
C2 theorem). -/
def renderPass (dpr : ℚ) (st : GridState) :
    List GridItem → GridState × List GridItem
  | [] => (st, [])
  | it :: rest =>
    let r1 := renderOne dpr st it
    let r2 := renderPass dpr r1.1 rest
    (r2.1, r1.2 :: r2.2)

/-- A sequence of `n` render passes over the same (evolving) data list. -/
def runPasses (dpr : ℚ) : ℕ → GridState → List GridItem →
    GridState × List GridItem
  | 0, st, items => (st, items)
  | n + 1, st, items =>
    let r := renderPass dpr st items
    runPasses dpr n r.1 r.2

/-- Strip the internal render properties, as the query result does
(lines 189-194). -/
def strip (it : GridItem) : GridItem := { it with renderProps := none }

/-- Filter predicate of `Grid.findByPosition` (lines 172-188): items without
persisted render properties are excluded; otherwise an axis-aligned box
containment test of the unscaled query point against the persisted origin,
width and height. -/
def gridHit (p : ℚ × ℚ) (it : GridItem) : Bool :=
  match it.renderProps with
  | none => false
  | some rp =>
    decide ((rp.origin.1 : ℚ) ≤ p.1) &&
    decide (p.1 ≤ (rp.origin.1 : ℚ) + (rp.width : ℚ)) &&
    decide ((rp.origin.2 : ℚ) ≤ p.2) &&
    decide (p.2 ≤ (rp.origin.2 : ℚ) + (rp.height : ℚ))

/-- `Grid.findByPosition` (lines 172-195). -/
def findByPosition (data : List GridItem) (p : ℚ × ℚ) : List GridItem :=
  (data.filter (gridHit p)).map strip

/-- Number of raster productions recorded for one cache key. -/
def countKey (k : String) (l : List (String × GridImage)) : ℕ :=
  (l.filter (fun q => q.1 = k)).length

end GridM

namespace LineM

/-- Render properties persisted on a line item
(src/src/Line/index.js lines 50-55). The `Path2D` built from the rounded
path by `moveTo`/`lineTo` (lines 22-34) is modelled by its vertex list. -/
structure LineRenderProps where
  color : Option String
  path : List (ℤ × ℤ)
  path2D : List (ℤ × ℤ)
  width : ℤ
  deriving DecidableEq

/-- One polyline item; `renderProps` is absent until the first successful
render. -/
structure LineItem where
  color : Option String := none
  path : List (ℚ × ℚ) := []
  width : Option ℚ := none
  renderProps : Option LineRenderProps := none
  deriving DecidableEq

/-- Value triple returned by a `getSnapshotBeforeRender` hook. -/
structure Snapshot where
  color : Option String
  path : List (ℚ × ℚ)
  width : Option ℚ

/-- One `ctx.stroke(path2D)` call with the stroke style set before it. -/
structure StrokeCall where
  path2D : List (ℤ × ℤ)
  color : Option String
  width : ℤ
  deriving DecidableEq

/-- `Line.render` (static, lines 8-58): skip when the width is 0; skip when
the path has at most one point; otherwise build the `Path2D`, persist the
render properties, and stroke. Skipped items are returned untouched: no
render properties are persisted for them. -/
def render (strokes : List StrokeCall) (item : LineItem)
    (color : Option String) (path : List (ℤ × ℤ)) (width : ℤ) :
    List StrokeCall × LineItem :=
  if width = 0 then (strokes, item)
  else if path.length ≤ 1 then (strokes, item)
  else
    let path2D := path
    let rp : LineRenderProps :=
      { color := color, path := path, path2D := path2D, width := width }
    let item2 := { item with renderProps := some rp }
    let call : StrokeCall :=
      { path2D := path2D, color := color, width := width }
    (strokes ++ [call], item2)

/-- JavaScript `width || 1` (line 138): `undefined` and `0` are falsy, so
both default to 1. -/
def defaultWidth : Option ℚ → ℚ
  | none => 1
  | some w => if w = 0 then 1 else w

/-- Per-item callback of `Line.prototype.render` (lines 110-142): apply the
optional snapshot hook, round every path vertex, round the defaulted width,
then call the static render. -/
def renderOne (snap : Option (LineItem → Snapshot))
    (strokes : List StrokeCall) (item : LineItem) :
    List StrokeCall × LineItem :=
  let color := match snap with | some g => (g item).color | none => item.color
  let path := match snap with | some g => (g item).path | none => item.path
  let width := match snap with | some g => (g item).width | none => item.width
  let roundedPath := path.map (fun q => (jsRound q.1, jsRound q.2))
  let roundedWidth := jsRound (defaultWidth width)
  render strokes item color roundedPath roundedWidth

/-- `Line.findByPosition` (lines 92-105): for each item in order, set
`ctx.lineWidth` to the raw item width and ask the opaque
`ctx.isPointInStroke` capability (`strokeTest path2D width point`) whether
the point lies on the stroked path. The body reads `renderProps.path2D`
without a null check, so an item that has never been rendered raises a
TypeError, modelled by `Except.error ()`. -/
def findByPosition (strokeTest : List (ℤ × ℤ) → Option ℚ → ℚ × ℚ → Bool)
    (data : List LineItem) (p : ℚ × ℚ) : Except Unit (List LineItem) :=
  match data with
  | [] => Except.ok []
  | it :: rest =>
    match it.renderProps with
    | none => Except.error ()
    | some rp =>
      let keep := strokeTest rp.path2D it.width p
      match findByPosition strokeTest rest p with
      | Except.error e => Except.error e
      | Except.ok tail =>
        Except.ok (if keep then { it with renderProps := none } :: tail
          else tail)

end LineM

namespace MarkerM

/-- Render properties persisted on a marker
(src/src/Marker/index.js lines 88-96): rounded anchor, height, position and
width; the icon source; the rotation kept exact. -/
structure MarkerRenderProps where
  anchorOrigin : ℤ × ℤ
  height : ℤ
  icon : String
  position : ℤ × ℤ
  rotation : ℚ
  width : ℤ
  deriving DecidableEq

/-- One marker item; `renderProps` is absent until the first render. -/
structure MarkerItem where
  anchorOrigin : Option (ℚ × ℚ) := none
  height : ℚ
  icon : String
  position : ℚ × ℚ
  rotation : Option ℚ := none
  width : ℚ
  renderProps : Option MarkerRenderProps := none
  deriving DecidableEq

/-- `getTransformedAndRotatedPosition` (Marker/index.js lines 22-49).
The rotation matrix is built with the negated angle
(`[[cos(-r), -sin(-r)], [sin(-r), cos(-r)]]`, lines 27-30) because the
marker rotates clockwise while the matrix convention is anti-clockwise; the
result is `OP + M·(PO + OA) + (-delta)`. The host trigonometric functions
enter through the oracle `T`. -/
def getTransformedAndRotatedPosition (T : TrigOracle)
    (position rotationOrigin : ℚ × ℚ) (rotation : ℚ) (deltaMove : ℚ × ℚ) :
    ℚ × ℚ :=
  let c := T.cos (-rotation)
  let s := T.sin (-rotation)
  let OP := rotationOrigin
  let PO := (-rotationOrigin.1, -rotationOrigin.2)
  let OA := position
  let PA := (PO.1 + OA.1, PO.2 + OA.2)
  let delta := (-deltaMove.1, -deltaMove.2)
  (OP.1 + (c * PA.1 + -s * PA.2) + delta.1,
   OP.2 + (s * PA.1 + c * PA.2) + delta.2)

/-- Filter predicate of `Marker.findByPosition` (lines 208-246): items with
no persisted render properties are excluded; otherwise the query point is
transformed by `getTransformedAndRotatedPosition` about the persisted
position by the persisted rotation with the persisted anchor as delta, and
tested for axis-aligned containment in the persisted box. -/
def markerHit (T : TrigOracle) (p : ℚ × ℚ) (it : MarkerItem) : Bool :=
  match it.renderProps with
  | none => false
  | some rp =>
    let t := getTransformedAndRotatedPosition T p
      ((rp.position.1 : ℚ), (rp.position.2 : ℚ)) rp.rotation
      ((rp.anchorOrigin.1 : ℚ), (rp.anchorOrigin.2 : ℚ))
    decide ((rp.position.1 : ℚ) ≤ t.1) &&
    decide (t.1 ≤ (rp.position.1 : ℚ) + (rp.width : ℚ)) &&
    decide ((rp.position.2 : ℚ) ≤ t.2) &&
    decide (t.2 ≤ (rp.position.2 : ℚ) + (rp.height : ℚ))

/-- Strip the internal render properties from a query result item. -/
def strip (it : MarkerItem) : MarkerItem := { it with renderProps := none }

/-- `Marker.findByPosition` (lines 208-246). -/
def findByPosition (T : TrigOracle) (data : List MarkerItem) (p : ℚ × ℚ) :
    List MarkerItem :=
  (data.filter (markerHit T p)).map strip

/-- The transformed point exactly as the specification words it:
`origin + R(-θ)·(point - origin) - delta`, with `R(φ)` the standard
anti-clockwise rotation matrix `[[cos φ, -sin φ], [sin φ, cos φ]]`.
Stated from the specification text, to be compared with the source-derived
`getTransformedAndRotatedPosition`. -/
def specTransformedPoint (T : TrigOracle) (point origin delta : ℚ × ℚ)
    (θ : ℚ) : ℚ × ℚ :=
  let c := T.cos (-θ)
  let s := T.sin (-θ)
  (origin.1 + (c * (point.1 - origin.1) - s * (point.2 - origin.2)) - delta.1,
   origin.2 + (s * (point.1 - origin.1) + c * (point.2 - origin.2)) - delta.2)

end MarkerM

namespace TextM

/-- Render properties persisted on a text item
(src/src/Text/index.js lines 84-96): the resolved anchor, the colour, the
canvas font string, the rounded font size, the raw position, the text and
its measured width. -/
structure TextRenderProps where
  anchorOrigin : ℚ × ℚ
  anchorOriginDescription : Option String
  color : String
  font : String
  fontSize : ℤ
  position : ℚ × ℚ
  text : String
  width : ℚ
  deriving DecidableEq

/-- One text item; `renderProps` is absent until the first render. -/
structure TextItem where
  anchorOrigin : Option (ℚ × ℚ) := none
  anchorOriginDescription : Option String := none
  color : Option String := none
  fontSize : Option ℚ := none
  position : ℚ × ℚ
  text : Option String := none
  renderProps : Option TextRenderProps := none
  deriving DecidableEq

/-- The canvas font string after `ctx.font = fontSize + "px sans-serif"`
(line 24). -/
def fontString (fontSize : ℤ) : String := toString fontSize ++ "px sans-serif"

/-- The nine-way anchor description switch (lines 38-68), producing the
anchor offset from the measured text width and the font size used as text
height. Every offset component goes through `Math.round`. -/
def anchorFromDescription (d : String) (textWidth : ℚ) (textHeight : ℤ) :
    ℚ × ℚ :=
  if d = "bottom-center" then ((-(jsRound (textWidth / 2)) : ℤ), 0)
  else if d = "bottom-left" then (0, 0)
  else if d = "bottom-right" then ((-(jsRound textWidth) : ℤ), 0)
  else if d = "center" then
    ((-(jsRound (textWidth / 2)) : ℤ), (jsRound ((textHeight : ℚ) / 2) : ℤ))
  else if d = "middle-left" then
    (0, (jsRound ((textHeight : ℚ) / 2) : ℤ))
  else if d = "middle-right" then
    ((-(jsRound textWidth) : ℤ), (jsRound ((textHeight : ℚ) / 2) : ℤ))
  else if d = "top-center" then
    ((-(jsRound (textWidth / 2)) : ℤ), (textHeight : ℤ))
  else if d = "top-left" then (0, (textHeight : ℤ))
  else if d = "top-right" then ((-(jsRound textWidth) : ℤ), (textHeight : ℤ))
  else (0, 0)

/-- `Text.render` (static, lines 9-105): skip empty or missing text;
resolve the anchor (a truthy description has priority, then a truthy
explicit anchor, then the bottom-left default); persist render properties
(including the canvas font string and the measured width) and fill the text
at `position + anchor`. `measure` is the opaque `ctx.measureText` width
capability for the font set from the given font size. The fill log records
`(text, x, y)` of each `ctx.fillText` call. -/
def render (measure : ℤ → String → ℚ) (fills : List (String × ℚ × ℚ))
    (item : TextItem) (anchorOrigin : Option (ℚ × ℚ))
    (anchorOriginDescription : Option String) (color : String) (fontSize : ℤ)
    (position : ℚ × ℚ) (text : Option String) :
    List (String × ℚ × ℚ) × TextItem :=
  match text with
  | none => (fills, item)
  | some tx =>
    if tx = "" then (fills, item)
    else
      let desc : Option String :=
        match anchorOriginDescription with
        | some d => if d = "" then none else some d
        | none => none
      let internalAnchorOrigin : ℚ × ℚ :=
        match desc with
        | some d =>
          let a := anchorFromDescription d (measure fontSize tx) fontSize
          ((a.1 : ℚ), (a.2 : ℚ))
        | none =>
          match anchorOrigin with
          | some a => a
          | none => (0, 0)
      let rp : TextRenderProps :=
        { anchorOrigin := internalAnchorOrigin,
          anchorOriginDescription := anchorOriginDescription,
          color := color, font := fontString fontSize, fontSize := fontSize,
          position := position, text := tx, width := measure fontSize tx }
      let item2 := { item with anchorOrigin := some internalAnchorOrigin,
                               renderProps := some rp }
      (fills ++ [(tx, position.1 + internalAnchorOrigin.1,
        position.2 + internalAnchorOrigin.2)], item2)

/-- Per-item callback of `Text.prototype.render` (lines 196-217): default
colour to black and font size to 10, round the font size, call the static
render. -/
def renderOne (measure : ℤ → String → ℚ) (fills : List (String × ℚ × ℚ))
    (item : TextItem) : List (String × ℚ × ℚ) × TextItem :=
  let color := item.color.getD "black"
  let fontSize := item.fontSize.getD 10
  let roundedFontSize := jsRound fontSize
  render measure fills item item.anchorOrigin item.anchorOriginDescription
    color roundedFontSize item.position item.text

/-- Filter predicate of `Text.findByPosition` (lines 161-188): items with
no persisted render properties are excluded; the query point is multiplied
by the device pixel ratio and box-tested against the persisted position and
measured width; the vertical upper bound destructures `font` under the name
`height`, so it compares `y * dpr` with the JavaScript sum
`position[1] + font`, a string concatenation. -/
def textHit (dpr : ℚ) (p : ℚ × ℚ) (it : TextItem) : Bool :=
  match it.renderProps with
  | none => false
  | some rp =>
    decide (rp.position.1 ≤ p.1 * dpr) &&
    decide (p.1 * dpr ≤ rp.position.1 + rp.width) &&
    decide (rp.position.2 ≤ p.2 * dpr) &&
    jsLeNumStr (p.2 * dpr) (jsConcatNumStr rp.position.2 rp.font)

/-- Strip the internal render properties from a query result item. -/
def strip (it : TextItem) : TextItem := { it with renderProps := none }

/-- `Text.findByPosition` (lines 161-191). -/
def findByPosition (dpr : ℚ) (data : List TextItem) (p : ℚ × ℚ) :
    List TextItem :=
  (data.filter (textHit dpr p)).map strip

end TextM

namespace MarkerM

/-- The specification-worded hit condition: the transformed point
`origin + R(-θ)(point - origin) - delta` lies in the axis-aligned box from
the persisted position to position + (width, height). -/
def specHit (T : TrigOracle) (p : ℚ × ℚ) (rp : MarkerRenderProps) : Prop :=
  let t := specTransformedPoint T p
    ((rp.position.1 : ℚ), (rp.position.2 : ℚ))
    ((rp.anchorOrigin.1 : ℚ), (rp.anchorOrigin.2 : ℚ)) rp.rotation
  (rp.position.1 : ℚ) ≤ t.1 ∧ t.1 ≤ (rp.position.1 : ℚ) + (rp.width : ℚ) ∧
  (rp.position.2 : ℚ) ≤ t.2 ∧ t.2 ≤ (rp.position.2 : ℚ) + (rp.height : ℚ)

lemma transform_eq_spec (T : TrigOracle) (point origin delta : ℚ × ℚ)
    (θ : ℚ) :
    getTransformedAndRotatedPosition T point origin θ delta =
      specTransformedPoint T point origin delta θ := by
  unfold getTransformedAndRotatedPosition specTransformedPoint
  dsimp only
  simp only [Prod.mk.injEq]
  constructor <;> ring

end MarkerM

/-- **C4.** Marker hit-testing inverts the draw transform: for a marker with
persisted render properties, `findByPosition` keeps the marker exactly when
the point `origin + R(-θ)(point - origin) - delta` (computed with the host
trigonometric oracle, delta being the persisted anchor) lies in the
axis-aligned box from the persisted position to position + (width, height);
and `findByPosition` is precisely this filter over the data with the
internal render properties stripped. -/
theorem marker_hittest_C4 (T : TrigOracle) (it : MarkerM.MarkerItem)
    (rp : MarkerM.MarkerRenderProps) (h : it.renderProps = some rp)
    (p : ℚ × ℚ) (data : List MarkerM.MarkerItem) :
    (MarkerM.markerHit T p it = true ↔ MarkerM.specHit T p rp) ∧
    MarkerM.findByPosition T data p =
      (data.filter (MarkerM.markerHit T p)).map MarkerM.strip := by
  refine ⟨?_, rfl⟩
  simp only [MarkerM.markerHit, h, MarkerM.specHit,
    MarkerM.transform_eq_spec, Bool.and_eq_true, decide_eq_true_eq, and_assoc]

/-- Concrete marker of the specification instance: position (100, 100),
anchor (0, 0), rotation 0, size 20 by 20, with its persisted render
properties. -/
def rp100 : MarkerM.MarkerRenderProps :=
  { anchorOrigin := (0, 0), height := 20, icon := "icon.png",
    position := (100, 100), rotation := 0, width := 20 }

/-- The marker item carrying `rp100`. -/
def m100 : MarkerM.MarkerItem :=
  { anchorOrigin := some (0, 0), height := 20, icon := "icon.png",
    position := (100, 100), rotation := some 0, width := 20,
    renderProps := some rp100 }

/-- **C4 witness.** The marker at (100, 100), rotation 0, 20 by 20 is hit at
(105, 105) and not hit at (200, 200). -/
theorem marker_hittest_C4_witness :
    MarkerM.markerHit trigAtZero ((105 : ℚ), 105) m100 = true ∧
    MarkerM.findByPosition trigAtZero [m100] ((105 : ℚ), 105) =
      [MarkerM.strip m100] ∧
    MarkerM.findByPosition trigAtZero [m100] ((200 : ℚ), 200) = [] := by
  have h := marker_hittest_C4 trigAtZero m100 rp100 rfl ((105 : ℚ), 105) [m100]
  refine ⟨h.1.mpr ?_, ?_, ?_⟩
  · simp only [MarkerM.specHit, MarkerM.specTransformedPoint, trigAtZero,
      rp100]
    norm_num
  · simp only [MarkerM.findByPosition, MarkerM.markerHit, m100, rp100,
      MarkerM.getTransformedAndRotatedPosition, trigAtZero, MarkerM.strip,
      List.filter_cons, List.filter_nil]
    norm_num
    rfl
  · simp only [MarkerM.findByPosition, MarkerM.markerHit, m100, rp100,
      MarkerM.getTransformedAndRotatedPosition, trigAtZero, MarkerM.strip,
      List.filter_cons, List.filter_nil]
    norm_num

namespace GridM

/-- Initial canvas-side state of a freshly constructed Grid layer: the cache
is created empty (src/src/Grid/index.js line 118). -/
def initState : GridState := {}

/-- The rounded render properties that `renderOne` computes for an item. -/
def itemRenderProps (it : GridItem) : GridRenderProps :=
  { borderColor := it.borderColor, color := it.color,
    height := jsRound (it.height.getD 0),
    origin := (jsRound it.origin.1, jsRound it.origin.2),
    width := jsRound (it.width.getD 0) }

/-- The fragment `renderOffscreen` would produce for an item at a given
device pixel ratio. -/
def itemImage (dpr : ℚ) (it : GridItem) : GridImage :=
  renderOffscreen it.borderColor it.color dpr (jsRound (it.height.getD 0))
    (jsRound (it.width.getD 0))

lemma lookup_append_some {l1 l2 : List (String × GridImage)} {k : String}
    {v : GridImage} (h : l1.lookup k = some v) :
    (l1 ++ l2).lookup k = some v := by
  induction l1 with
  | nil => cases h
  | cons x xs ih =>
    obtain ⟨xk, xv⟩ := x
    rw [List.cons_append]
    rw [List.lookup_cons] at h ⊢
    by_cases hk : (k == xk) = true
    · rw [hk] at h ⊢
      exact h
    · rw [Bool.not_eq_true] at hk
      rw [hk] at h ⊢
      exact ih h

lemma lookup_append_none {l1 l2 : List (String × GridImage)} {k : String}
    (h : l1.lookup k = none) : (l1 ++ l2).lookup k = l2.lookup k := by
  induction l1 with
  | nil => rfl
  | cons x xs ih =>
    obtain ⟨xk, xv⟩ := x
    rw [List.cons_append]
    rw [List.lookup_cons] at h ⊢
    by_cases hk : (k == xk) = true
    · rw [hk] at h
      cases h
    · rw [Bool.not_eq_true] at hk
      rw [hk] at h ⊢
      exact ih h

lemma countKey_append (k : String) (l1 l2 : List (String × GridImage)) :
    countKey k (l1 ++ l2) = countKey k l1 + countKey k l2 := by
  simp [countKey, List.filter_append]

/-- Invariant tying productions to cache entries: every key has been
produced at most once, and a produced key is present in the cache. -/
def CacheInv (st : GridState) : Prop :=
  ∀ k, countKey k st.prods ≤ 1 ∧
    (1 ≤ countKey k st.prods → (st.cache.lookup k).isSome = true)

lemma initState_cacheInv : CacheInv initState := by
  intro k
  exact ⟨by simp [initState, countKey], by simp [initState, countKey]⟩

lemma renderOne_item (dpr : ℚ) (st : GridState) (it : GridItem) :
    (renderOne dpr st it).2 = { it with
      height := some (it.height.getD 0), width := some (it.width.getD 0),
      renderProps := some (itemRenderProps it) } := by
  unfold renderOne render itemRenderProps
  dsimp only
  split
  · rfl
  · split <;> rfl

lemma renderOne_state_skip (dpr : ℚ) (st : GridState) (it : GridItem)
    (h : jsRound (it.width.getD 0) = 0 ∨ jsRound (it.height.getD 0) = 0) :
    (renderOne dpr st it).1 = st := by
  unfold renderOne render
  dsimp only
  rw [if_pos h]

lemma renderOne_state_hit (dpr : ℚ) (st : GridState) (it : GridItem)
    (v : GridImage)
    (hnz : ¬(jsRound (it.width.getD 0) = 0 ∨ jsRound (it.height.getD 0) = 0))
    (hl : st.cache.lookup (cacheKey (itemRenderProps it)) = some v) :
    (renderOne dpr st it).1 = { st with
      puts := st.puts ++ [(v, (jsRound it.origin.1 : ℚ) * dpr,
        (jsRound it.origin.2 : ℚ) * dpr)] } := by
  unfold renderOne render
  dsimp only
  rw [if_neg hnz]
  unfold itemRenderProps at hl
  rw [hl]

lemma renderOne_state_miss (dpr : ℚ) (st : GridState) (it : GridItem)
    (hnz : ¬(jsRound (it.width.getD 0) = 0 ∨ jsRound (it.height.getD 0) = 0))
    (hl : st.cache.lookup (cacheKey (itemRenderProps it)) = none) :
    (renderOne dpr st it).1 = { st with
      cache := st.cache ++ [(cacheKey (itemRenderProps it), itemImage dpr it)],
      prods := st.prods ++ [(cacheKey (itemRenderProps it), itemImage dpr it)],
      puts := st.puts ++ [(itemImage dpr it, (jsRound it.origin.1 : ℚ) * dpr,
        (jsRound it.origin.2 : ℚ) * dpr)] } := by
  unfold renderOne render
  dsimp only
  rw [if_neg hnz]
  unfold itemRenderProps at hl
  rw [hl]
  rfl

lemma renderOne_cache_stable (dpr : ℚ) (st : GridState) (it : GridItem)
    {k : String} {v : GridImage} (hl : st.cache.lookup k = some v) :
    (renderOne dpr st it).1.cache.lookup k = some v := by
  by_cases hz : jsRound (it.width.getD 0) = 0 ∨ jsRound (it.height.getD 0) = 0
  · rw [renderOne_state_skip dpr st it hz]
    exact hl
  · cases hm : st.cache.lookup (cacheKey (itemRenderProps it)) with
    | some w =>
      rw [renderOne_state_hit dpr st it w hz hm]
      exact hl
    | none =>
      rw [renderOne_state_miss dpr st it hz hm]
      exact lookup_append_some hl

lemma renderOne_cacheInv (dpr : ℚ) (st : GridState) (it : GridItem)
    (hinv : CacheInv st) : CacheInv (renderOne dpr st it).1 := by
  by_cases hz : jsRound (it.width.getD 0) = 0 ∨ jsRound (it.height.getD 0) = 0
  · rw [renderOne_state_skip dpr st it hz]
    exact hinv
  · cases hm : st.cache.lookup (cacheKey (itemRenderProps it)) with
    | some w =>
      rw [renderOne_state_hit dpr st it w hz hm]
      exact hinv
    | none =>
      rw [renderOne_state_miss dpr st it hz hm]
      intro k
      dsimp only
      rw [countKey_append]
      by_cases hk : cacheKey (itemRenderProps it) = k
      · have h0 : countKey k st.prods = 0 := by
          by_contra hc
          have h1 : 1 ≤ countKey k st.prods := by omega
          have := (hinv k).2 h1
          rw [← hk, hm] at this
          cases this
        have hone : countKey k [(cacheKey (itemRenderProps it),
            itemImage dpr it)] = 1 := by
          simp [countKey, hk]
        constructor
        · omega
        · intro _
          rw [← hk, lookup_append_none hm]
          simp [List.lookup_cons]
      · have hzero : countKey k [(cacheKey (itemRenderProps it),
            itemImage dpr it)] = 0 := by
          simp [countKey, hk]
        refine ⟨by have := (hinv k).1; omega, ?_⟩
        intro hge
        rw [hzero, Nat.add_zero] at hge
        have := (hinv k).2 hge
        obtain ⟨v, hv⟩ := Option.isSome_iff_exists.mp this
        rw [lookup_append_some hv]
        rfl

lemma renderPass_cacheInv (dpr : ℚ) :
    ∀ (items : List GridItem) (st : GridState), CacheInv st →
      CacheInv (renderPass dpr st items).1 := by
  intro items
  induction items with
  | nil => intro st h; exact h
  | cons it rest ih =>
    intro st h
    exact ih _ (renderOne_cacheInv dpr st it h)

lemma runPasses_cacheInv (dpr : ℚ) :
    ∀ (n : ℕ) (st : GridState) (items : List GridItem), CacheInv st →
      CacheInv (runPasses dpr n st items).1 := by
  intro n
  induction n with
  | zero => intro st items h; exact h
  | succ m ih =>
    intro st items h
    exact ih _ _ (renderPass_cacheInv dpr items st h)

end GridM

namespace GridM

lemma renderPass_cons_state (dpr : ℚ) (st : GridState) (it : GridItem)
    (rest : List GridItem) :
    (renderPass dpr st (it :: rest)).1 =
      (renderPass dpr (renderOne dpr st it).1 rest).1 := rfl

lemma renderPass_nil_state (dpr : ℚ) (st : GridState) :
    (renderPass dpr st []).1 = st := rfl

end GridM

/-- **C5 (amended).** The expensive offscreen raster production runs at most
once per distinct cache KEY over any sequence of render passes starting from
the empty cache, where the key is the comma-joined string of the rounded
width, the rounded height, the colour and the border colour; a stored entry
is never removed or overwritten by any step; an item whose key is present
skips production and is drawn with the stored fragment; an item whose key is
absent (and which is not skipped as degenerate) produces the fragment once
and stores it under its key. Since identical style signatures always map to
the same key, production also runs at most once per distinct signature; but
two distinct signatures may collide on one key when a colour contains a
comma, so it is the key, not the signature, that governs entry creation. -/
theorem grid_cache_C5 (dpr : ℚ) :
    (∀ (n : ℕ) (items : List GridM.GridItem) (k : String),
      GridM.countKey k
        (GridM.runPasses dpr n GridM.initState items).1.prods ≤ 1) ∧
    (∀ (st : GridM.GridState) (it : GridM.GridItem) (k : String)
      (v : GridM.GridImage), st.cache.lookup k = some v →
      (GridM.renderOne dpr st it).1.cache.lookup k = some v) ∧
    (∀ (st : GridM.GridState) (it : GridM.GridItem) (v : GridM.GridImage),
      ¬(jsRound (it.width.getD 0) = 0 ∨ jsRound (it.height.getD 0) = 0) →
      st.cache.lookup (GridM.cacheKey (GridM.itemRenderProps it)) = some v →
      (GridM.renderOne dpr st it).1.prods = st.prods ∧
      (GridM.renderOne dpr st it).1.puts = st.puts ++
        [(v, (jsRound it.origin.1 : ℚ) * dpr,
          (jsRound it.origin.2 : ℚ) * dpr)]) ∧
    (∀ (st : GridM.GridState) (it : GridM.GridItem),
      ¬(jsRound (it.width.getD 0) = 0 ∨ jsRound (it.height.getD 0) = 0) →
      st.cache.lookup (GridM.cacheKey (GridM.itemRenderProps it)) = none →
      (GridM.renderOne dpr st it).1.prods = st.prods ++
        [(GridM.cacheKey (GridM.itemRenderProps it), GridM.itemImage dpr it)] ∧
      (GridM.renderOne dpr st it).1.cache.lookup
        (GridM.cacheKey (GridM.itemRenderProps it)) =
          some (GridM.itemImage dpr it)) := by
  refine ⟨?_, ?_, ?_, ?_⟩
  · intro n items k
    exact ((GridM.runPasses_cacheInv dpr n GridM.initState items
      GridM.initState_cacheInv) k).1
  · intro st it k v h
    exact GridM.renderOne_cache_stable dpr st it h
  · intro st it v hnz hl
    rw [GridM.renderOne_state_hit dpr st it v hnz hl]
    exact ⟨rfl, rfl⟩
  · intro st it hnz hl
    rw [GridM.renderOne_state_miss dpr st it hnz hl]
    refine ⟨rfl, ?_⟩
    dsimp only
    rw [GridM.lookup_append_none hl]
    simp [List.lookup]

/-- First item of the C5 collision scenario: style signature
(width 1, height 1, colour "a,b", border "c"). -/
def c5item1 : GridM.GridItem :=
  { borderColor := some "c", color := "a,b", origin := (0, 0),
    width := some 1, height := some 1 }

/-- Second item of the C5 collision scenario: the distinct style signature
(width 1, height 1, colour "a", border "b,c"), which joins to the same
cache key string. -/
def c5item2 : GridM.GridItem :=
  { borderColor := some "b,c", color := "a", origin := (0, 0),
    width := some 1, height := some 1 }

/-- The fragment produced for `c5item1`. -/
def c5img1 : GridM.GridImage :=
  { borderColor := some "c", color := "a,b", dpr := 1, height := 1,
    width := 1 }

/-- The fragment that `c5item2` would produce, had its signature been keyed
distinctly. -/
def c5img2 : GridM.GridImage :=
  { borderColor := some "b,c", color := "a", dpr := 1, height := 1,
    width := 1 }

/-- **C5 counterexample.** Two items with distinct style signatures whose
comma-joined keys collide: rendering both from the empty cache performs only
one raster production (for the first signature); the first item carrying the
second signature creates no cache entry of its own and is drawn with the
first signature's fragment, although the fragments of the two signatures
differ. This refutes the claim that the first item with a given signature
always creates a cache entry of that signature. -/
theorem grid_cache_C5_cex :
    GridM.itemRenderProps c5item1 ≠ GridM.itemRenderProps c5item2 ∧
    GridM.cacheKey (GridM.itemRenderProps c5item1) =
      GridM.cacheKey (GridM.itemRenderProps c5item2) ∧
    (GridM.renderPass 1 GridM.initState [c5item1, c5item2]).1.prods =
      [("1,1,a,b,c", c5img1)] ∧
    (GridM.renderPass 1 GridM.initState [c5item1, c5item2]).1.puts =
      [(c5img1, 0, 0), (c5img1, 0, 0)] ∧
    c5img1 ≠ c5img2 := by
  have hnz1 : ¬(jsRound (c5item1.width.getD 0) = 0 ∨
      jsRound (c5item1.height.getD 0) = 0) := by
    simp only [c5item1, Option.getD_some]
    norm_num [jsRound]
  have hnz2 : ¬(jsRound (c5item2.width.getD 0) = 0 ∨
      jsRound (c5item2.height.getD 0) = 0) := by
    simp only [c5item2, Option.getD_some]
    norm_num [jsRound]
  have hrp1 : GridM.itemRenderProps c5item1 =
      { borderColor := some "c", color := "a,b", height := 1,
        origin := (0, 0), width := 1 } := by
    simp only [GridM.itemRenderProps, c5item1, Option.getD_some]
    norm_num [jsRound]
  have hrp2 : GridM.itemRenderProps c5item2 =
      { borderColor := some "b,c", color := "a", height := 1,
        origin := (0, 0), width := 1 } := by
    simp only [GridM.itemRenderProps, c5item2, Option.getD_some]
    norm_num [jsRound]
  have hkey1 : GridM.cacheKey (GridM.itemRenderProps c5item1) =
      "1,1,a,b,c" := by
    rw [hrp1]
    rfl
  have hkey2 : GridM.cacheKey (GridM.itemRenderProps c5item2) =
      "1,1,a,b,c" := by
    rw [hrp2]
    rfl
  have himg1 : GridM.itemImage 1 c5item1 = c5img1 := by
    simp only [GridM.itemImage, GridM.renderOffscreen, c5item1, c5img1,
      Option.getD_some]
    norm_num [jsRound]
  have ho1 : jsRound c5item1.origin.1 = 0 := by
    simp only [c5item1]
    norm_num [jsRound]
  have ho2 : jsRound c5item1.origin.2 = 0 := by
    simp only [c5item1]
    norm_num [jsRound]
  have ho3 : jsRound c5item2.origin.1 = 0 := by
    simp only [c5item2]
    norm_num [jsRound]
  have ho4 : jsRound c5item2.origin.2 = 0 := by
    simp only [c5item2]
    norm_num [jsRound]
  have hst1 : (GridM.renderOne 1 GridM.initState c5item1).1 =
      { cache := [("1,1,a,b,c", c5img1)], prods := [("1,1,a,b,c", c5img1)],
        puts := [(c5img1, 0, 0)] } := by
    rw [GridM.renderOne_state_miss 1 GridM.initState c5item1 hnz1 rfl,
      himg1, hkey1, ho1, ho2]
    simp [GridM.initState]
  have hl2 : (GridM.GridState.mk [("1,1,a,b,c", c5img1)]
      [("1,1,a,b,c", c5img1)] [(c5img1, 0, 0)]).cache.lookup
      (GridM.cacheKey (GridM.itemRenderProps c5item2)) = some c5img1 := by
    rw [hkey2]
    rfl
  have hst2 := GridM.renderOne_state_hit 1 _ c5item2 c5img1 hnz2 hl2
  rw [ho3, ho4] at hst2
  refine ⟨?_, by rw [hkey1, hkey2], ?_, ?_, by decide⟩
  · rw [hrp1, hrp2]
    simp
  · rw [GridM.renderPass_cons_state, GridM.renderPass_cons_state,
      GridM.renderPass_nil_state, hst1, hst2]
  · rw [GridM.renderPass_cons_state, GridM.renderPass_cons_state,
      GridM.renderPass_nil_state, hst1, hst2]
    dsimp only
    norm_num

/-- **C5 amended witness.** The amended cache behaviour evaluated
concretely: two passes over the collision scenario still perform at most one
production for the key, and the first render of `c5item1` from the empty
cache produces and stores its fragment. -/
theorem grid_cache_C5_witness :
    GridM.countKey "1,1,a,b,c"
      (GridM.runPasses 1 2 GridM.initState [c5item1, c5item2]).1.prods ≤ 1 ∧
    (GridM.renderOne 1 GridM.initState c5item1).1.prods =
      GridM.initState.prods ++
        [(GridM.cacheKey (GridM.itemRenderProps c5item1),
          GridM.itemImage 1 c5item1)] := by
  have h := grid_cache_C5 1
  refine ⟨h.1 2 [c5item1, c5item2] "1,1,a,b,c",
    (h.2.2.2 GridM.initState c5item1 ?_ rfl).1⟩
  simp only [c5item1, Option.getD_some]
  norm_num [jsRound]

namespace LineM

/-- The colour actually used by the per-item callback: the snapshot hook
overrides the item fields when configured (Line/index.js lines 112-127). -/
def effColor (snap : Option (LineItem → Snapshot)) (it : LineItem) :
    Option String :=
  match snap with
  | some g => (g it).color
  | none => it.color

/-- The path actually used by the per-item callback. -/
def effPath (snap : Option (LineItem → Snapshot)) (it : LineItem) :
    List (ℚ × ℚ) :=
  match snap with
  | some g => (g it).path
  | none => it.path

/-- The width actually used by the per-item callback. -/
def effWidth (snap : Option (LineItem → Snapshot)) (it : LineItem) :
    Option ℚ :=
  match snap with
  | some g => (g it).width
  | none => it.width

lemma renderOne_eq (snap : Option (LineItem → Snapshot))
    (strokes : List StrokeCall) (it : LineItem) :
    renderOne snap strokes it = render strokes it (effColor snap it)
      ((effPath snap it).map (fun q => (jsRound q.1, jsRound q.2)))
      (jsRound (defaultWidth (effWidth snap it))) := by
  unfold renderOne effColor effPath effWidth
  cases snap <;> rfl

lemma renderOne_skip (snap : Option (LineItem → Snapshot))
    (strokes : List StrokeCall) (it : LineItem)
    (h : jsRound (defaultWidth (effWidth snap it)) = 0 ∨
      (effPath snap it).length ≤ 1) :
    (renderOne snap strokes it).1 = strokes ∧
    (renderOne snap strokes it).2 = it := by
  rw [renderOne_eq]
  unfold render
  rcases h with h | h
  · rw [if_pos h]
    exact ⟨rfl, rfl⟩
  · by_cases hw : jsRound (defaultWidth (effWidth snap it)) = 0
    · rw [if_pos hw]
      exact ⟨rfl, rfl⟩
    · rw [if_neg hw, if_pos (by rw [List.length_map]; exact h)]
      exact ⟨rfl, rfl⟩

/-- The rounded path of the vertices actually drawn. -/
def roundedPath (snap : Option (LineItem → Snapshot)) (it : LineItem) :
    List (ℤ × ℤ) :=
  (effPath snap it).map (fun q => (jsRound q.1, jsRound q.2))

/-- The rounded defaulted stroke width actually drawn. -/
def roundedWidth (snap : Option (LineItem → Snapshot)) (it : LineItem) : ℤ :=
  jsRound (defaultWidth (effWidth snap it))

/-- The render properties persisted on a drawn item. -/
def drawnProps (snap : Option (LineItem → Snapshot)) (it : LineItem) :
    LineRenderProps :=
  ⟨effColor snap it, roundedPath snap it, roundedPath snap it,
    roundedWidth snap it⟩

/-- The stroke call issued for a drawn item. -/
def drawnStroke (snap : Option (LineItem → Snapshot)) (it : LineItem) :
    StrokeCall :=
  ⟨roundedPath snap it, effColor snap it, roundedWidth snap it⟩

lemma renderOne_draw (snap : Option (LineItem → Snapshot))
    (strokes : List StrokeCall) (it : LineItem)
    (hw : ¬jsRound (defaultWidth (effWidth snap it)) = 0)
    (hp : ¬(effPath snap it).length ≤ 1) :
    (renderOne snap strokes it).1 = strokes ++ [drawnStroke snap it] ∧
    (renderOne snap strokes it).2 =
      { it with renderProps := some (drawnProps snap it) } := by
  rw [renderOne_eq]
  unfold render drawnStroke drawnProps roundedPath roundedWidth
  rw [if_neg hw, if_neg (by rw [List.length_map]; exact hp)]
  exact ⟨rfl, rfl⟩

lemma findByPosition_error_head
    (strokeTest : List (ℤ × ℤ) → Option ℚ → ℚ × ℚ → Bool)
    (data : List LineItem) (p : ℚ × ℚ) (it : LineItem)
    (h : it.renderProps = none) :
    findByPosition strokeTest (it :: data) p = Except.error () := by
  unfold findByPosition
  rw [h]

lemma findByPosition_error_of_mem
    (strokeTest : List (ℤ × ℤ) → Option ℚ → ℚ × ℚ → Bool) (p : ℚ × ℚ) :
    ∀ (data : List LineItem), (∃ it ∈ data, it.renderProps = none) →
      ∃ e, findByPosition strokeTest data p = Except.error e := by
  intro data
  induction data with
  | nil =>
    intro h
    obtain ⟨it, hm, _⟩ := h
    cases hm
  | cons x rest ih =>
    intro h
    obtain ⟨it, hm, hrp⟩ := h
    rcases List.mem_cons.mp hm with hx | hx
    · subst hx
      exact ⟨(), findByPosition_error_head strokeTest rest p it hrp⟩
    · cases hrpx : x.renderProps with
      | none => exact ⟨(), findByPosition_error_head strokeTest rest p x hrpx⟩
      | some rp =>
        obtain ⟨e, he⟩ := ih ⟨it, hx, hrp⟩
        refine ⟨e, ?_⟩
        unfold findByPosition
        rw [hrpx, he]

end LineM

/-- **C6 (amended).** The polyline render rounds every effective path
vertex; an unset width defaults to 1, and so does a width of exactly 0
(JavaScript `width || 1` treats 0 as falsy), so a width-0 item with at least
two points IS drawn with stroke width 1; the width guard of the static
render therefore fires only when the defaulted width rounds to 0 (raw
widths strictly between 0 and one half); an item skipped by the width guard
or by having fewer than two path points produces no stroke and keeps its
render properties unchanged (a fresh item keeps none); and a degenerate
never-rendered item in the data list makes `findByPosition` raise a
TypeError instead of being excluded. -/
theorem line_render_C6 (snap : Option (LineM.LineItem → LineM.Snapshot))
    (strokes : List LineM.StrokeCall) (it : LineM.LineItem) :
    LineM.defaultWidth none = 1 ∧
    LineM.defaultWidth (some 0) = 1 ∧
    (jsRound (LineM.defaultWidth (LineM.effWidth snap it)) = 0 ∨
        (LineM.effPath snap it).length ≤ 1 →
      (LineM.renderOne snap strokes it).1 = strokes ∧
      (LineM.renderOne snap strokes it).2 = it) ∧
    (¬jsRound (LineM.defaultWidth (LineM.effWidth snap it)) = 0 →
      ¬(LineM.effPath snap it).length ≤ 1 →
      (LineM.renderOne snap strokes it).1 =
        strokes ++ [LineM.drawnStroke snap it] ∧
      (LineM.renderOne snap strokes it).2 =
        { it with renderProps := some (LineM.drawnProps snap it) } ∧
      (LineM.drawnProps snap it).path = LineM.roundedPath snap it ∧
      (LineM.drawnProps snap it).width =
        jsRound (LineM.defaultWidth (LineM.effWidth snap it))) ∧
    (∀ (strokeTest : List (ℤ × ℤ) → Option ℚ → ℚ × ℚ → Bool)
      (data : List LineM.LineItem) (p : ℚ × ℚ), it.renderProps = none →
      LineM.findByPosition strokeTest (it :: data) p = Except.error ()) := by
  refine ⟨rfl, rfl, ?_, ?_, ?_⟩
  · intro h
    exact LineM.renderOne_skip snap strokes it h
  · intro hw hp
    obtain ⟨h1, h2⟩ := LineM.renderOne_draw snap strokes it hw hp
    exact ⟨h1, h2, rfl, rfl⟩
  · intro strokeTest data p h
    exact LineM.findByPosition_error_head strokeTest data p it h

/-- The width-0 polyline of the C6 scenario: two points, width exactly 0. -/
def c6item : LineM.LineItem :=
  { color := some "red", path := [(0, 0), (10, 10)], width := some 0 }

/-- **C6 counterexample.** An item with `width: 0` and a two-point path is
NOT skipped: `width || 1` defaults the zero width to 1, the item is drawn
with stroke width 1 and its geometry is persisted — the claim says such an
item produces no draw call and no persisted geometry. -/
theorem line_render_C6_cex :
    (LineM.renderOne none [] c6item).1 =
      [LineM.StrokeCall.mk [(0, 0), (10, 10)] (some "red") 1] ∧
    (LineM.renderOne none [] c6item).2.renderProps =
      some (LineM.LineRenderProps.mk (some "red") [(0, 0), (10, 10)]
        [(0, 0), (10, 10)] 1) := by
  have hw : ¬jsRound (LineM.defaultWidth (LineM.effWidth none c6item)) = 0 := by
    simp only [LineM.effWidth, c6item, LineM.defaultWidth]
    norm_num [jsRound]
  have hp : ¬(LineM.effPath none c6item).length ≤ 1 := by
    simp [LineM.effPath, c6item]
  obtain ⟨h1, h2⟩ := LineM.renderOne_draw none [] c6item hw hp
  have hps : LineM.drawnProps none c6item =
      LineM.LineRenderProps.mk (some "red") [(0, 0), (10, 10)]
        [(0, 0), (10, 10)] 1 := by
    simp only [LineM.drawnProps, LineM.roundedPath, LineM.roundedWidth,
      LineM.effColor, LineM.effPath, LineM.effWidth, c6item,
      LineM.defaultWidth, List.map_cons, List.map_nil]
    norm_num [jsRound]
  have hst : LineM.drawnStroke none c6item =
      LineM.StrokeCall.mk [(0, 0), (10, 10)] (some "red") 1 := by
    simp only [LineM.drawnStroke, LineM.roundedPath, LineM.roundedWidth,
      LineM.effColor, LineM.effPath, LineM.effWidth, c6item,
      LineM.defaultWidth, List.map_cons, List.map_nil]
    norm_num [jsRound]
  constructor
  · rw [h1, hst]
    rfl
  · rw [h2, hps]

/-- **C6 amended witness.** The amended statement evaluated concretely: a
one-point path is skipped with nothing persisted, and the width-0 item is
drawn with width 1. -/
theorem line_render_C6_witness :
    (LineM.renderOne none [] (LineM.LineItem.mk (some "red") [(5, 5)]
      (some 3) none)).1 = [] ∧
    (LineM.renderOne none [] (LineM.LineItem.mk (some "red") [(5, 5)]
      (some 3) none)).2 = LineM.LineItem.mk (some "red") [(5, 5)]
      (some 3) none ∧
    LineM.defaultWidth (some 0) = 1 := by
  have h := line_render_C6 none []
    (LineM.LineItem.mk (some "red") [(5, 5)] (some 3) none)
  obtain ⟨hs1, hs2⟩ := h.2.2.1 (Or.inr (by simp [LineM.effPath]))
  exact ⟨hs1, hs2, h.2.1⟩

/-- **C10.** A Grid item whose rounded width or height is 0 (the other
dimension nonnegative) produces no draw call and no cache or production
activity, yet its rounded render geometry IS persisted on the item, and
`findByPosition` at the rounded origin still returns the item under the
degenerate box containment test — unlike a degenerate polyline, which
keeps no persisted geometry at all. -/
theorem grid_degenerate_C10 (dpr : ℚ) (st : GridM.GridState)
    (it : GridM.GridItem)
    (h0 : jsRound (it.width.getD 0) = 0 ∨ jsRound (it.height.getD 0) = 0)
    (hw : 0 ≤ jsRound (it.width.getD 0))
    (hh : 0 ≤ jsRound (it.height.getD 0)) :
    (GridM.renderOne dpr st it).1 = st ∧
    (GridM.renderOne dpr st it).2.renderProps =
      some (GridM.itemRenderProps it) ∧
    GridM.findByPosition [(GridM.renderOne dpr st it).2]
      ((jsRound it.origin.1 : ℚ), (jsRound it.origin.2 : ℚ)) =
      [GridM.strip (GridM.renderOne dpr st it).2] ∧
    (∀ (snap : Option (LineM.LineItem → LineM.Snapshot))
      (strokes : List LineM.StrokeCall) (lit : LineM.LineItem),
      (LineM.effPath snap lit).length ≤ 1 →
      (LineM.renderOne snap strokes lit).1 = strokes ∧
      (LineM.renderOne snap strokes lit).2 = lit) := by
  have hitem := GridM.renderOne_item dpr st it
  have hrp : (GridM.renderOne dpr st it).2.renderProps =
      some (GridM.itemRenderProps it) := by
    rw [hitem]
  have hhit : GridM.gridHit
      ((jsRound it.origin.1 : ℚ), (jsRound it.origin.2 : ℚ))
      (GridM.renderOne dpr st it).2 = true := by
    rw [GridM.gridHit, hrp]
    simp only [GridM.itemRenderProps, Bool.and_eq_true, decide_eq_true_eq]
    refine ⟨⟨⟨le_refl _, ?_⟩, le_refl _⟩, ?_⟩
    · exact le_add_of_nonneg_right (by exact_mod_cast hw)
    · exact le_add_of_nonneg_right (by exact_mod_cast hh)
  refine ⟨GridM.renderOne_state_skip dpr st it h0, hrp, ?_, ?_⟩
  · rw [GridM.findByPosition]
    rw [List.filter_cons_of_pos hhit, List.filter_nil]
    rfl
  · intro snap strokes lit hlen
    exact LineM.renderOne_skip snap strokes lit (Or.inr hlen)

/-- **C10 witness.** A width-0 grid item at origin (3, 4): the state is
untouched, the geometry is persisted, and the query at (3, 4) returns the
item; a one-point polyline keeps nothing. -/
theorem grid_degenerate_C10_witness :
    (GridM.renderOne 1 GridM.initState (GridM.GridItem.mk none "blue"
      (some 5) (3, 4) (some 0) none)).1 = GridM.initState ∧
    GridM.findByPosition [(GridM.renderOne 1 GridM.initState
      (GridM.GridItem.mk none "blue" (some 5) (3, 4) (some 0) none)).2]
      ((jsRound ((3 : ℚ), (4 : ℚ)).1 : ℚ),
        (jsRound ((3 : ℚ), (4 : ℚ)).2 : ℚ)) =
      [GridM.strip (GridM.renderOne 1 GridM.initState
        (GridM.GridItem.mk none "blue" (some 5) (3, 4) (some 0) none)).2] := by
  have h := grid_degenerate_C10 1 GridM.initState
    (GridM.GridItem.mk none "blue" (some 5) (3, 4) (some 0) none)
    (Or.inl (by norm_num [jsRound]))
    (by norm_num [jsRound])
    (by norm_num [jsRound])
  exact ⟨h.1, h.2.2.1⟩

lemma parseUnsigned_of_mem_p {l : List Char} (h : 'p' ∈ l) :
    parseUnsigned l = none := by
  have hspan : l.span Char.isDigit =
      (l.takeWhile Char.isDigit, l.dropWhile Char.isDigit) :=
    List.span_eq_take_drop Char.isDigit l
  have hdecomp : l.takeWhile Char.isDigit ++ l.dropWhile Char.isDigit = l :=
    List.takeWhile_append_dropWhile Char.isDigit l
  have hptake : 'p' ∉ l.takeWhile Char.isDigit := by
    intro hmem
    have := List.mem_takeWhile_imp hmem
    exact absurd this (by decide)
  have hpdrop : 'p' ∈ l.dropWhile Char.isDigit := by
    conv at h => rw [← hdecomp]
    rcases List.mem_append.mp h with hx | hx
    · exact absurd hx hptake
    · exact hx
  unfold parseUnsigned
  split
  · next ds heq =>
    rw [hspan] at heq
    obtain ⟨hds, hdrop⟩ := Prod.mk.injEq .. |>.mp heq
    rw [hdrop] at hpdrop
    cases hpdrop
  · next ds fs heq =>
    rw [hspan] at heq
    obtain ⟨hds, hdrop⟩ := Prod.mk.injEq .. |>.mp heq
    rw [hdrop] at hpdrop
    have hprest : 'p' ∈ fs := by
      rcases List.mem_cons.mp hpdrop with hx | hx
      · exact absurd hx (by decide)
      · exact hx
    have hfs : ¬fs = [] := by
      intro hco
      rw [hco] at hprest
      cases hprest
    rw [if_neg (by intro hco; exact hfs hco.2), if_neg ?_]
    intro hall
    exact absurd (List.all_eq_true.mp hall 'p' hprest) (by decide)
  · rfl

lemma jsToNumber_of_mem_p {s : String} (h : 'p' ∈ s.toList) :
    jsToNumber s = none := by
  unfold jsToNumber
  split
  · next heq =>
    rw [heq] at h
    cases h
  · next rest heq =>
    rw [heq] at h
    have hrest : 'p' ∈ rest := by
      rcases List.mem_cons.mp h with hx | hx
      · exact absurd hx (by decide)
      · exact hx
    rw [parseUnsigned_of_mem_p hrest]
    rfl
  · next hne1 hne2 =>
    exact parseUnsigned_of_mem_p h

lemma mem_p_of_font (q : ℚ) (n : ℤ) :
    'p' ∈ (jsConcatNumStr q (TextM.fontString n)).toList := by
  show 'p' ∈ (toString q ++ (toString n ++ "px sans-serif")).data
  rw [String.data_append, String.data_append]
  refine List.mem_append.mpr (Or.inr (List.mem_append.mpr (Or.inr ?_)))
  decide

/-- The vertical upper-bound comparison of the Text hit test is always
false: the persisted font is the string `"<n>px sans-serif"`, its
concatenation after the numeric position is never a numeric literal, and a
JavaScript comparison against NaN is false. -/
lemma jsLeNumStr_font (x q : ℚ) (n : ℤ) :
    jsLeNumStr x (jsConcatNumStr q (TextM.fontString n)) = false := by
  unfold jsLeNumStr
  rw [jsToNumber_of_mem_p (mem_p_of_font q n)]

namespace TextM

lemma textHit_font_false (dpr : ℚ) (p : ℚ × ℚ) (it : TextItem)
    (rp : TextRenderProps) (hrp : it.renderProps = some rp) (n : ℤ)
    (hf : rp.font = fontString n) : textHit dpr p it = false := by
  rw [textHit, hrp]
  dsimp only
  rw [hf, jsLeNumStr_font]
  simp

/-- Every render property record produced by the render pipeline carries a
font string of the shape `"<n>px sans-serif"`. -/
def PipelineShaped (it : TextItem) : Prop :=
  it.renderProps = none ∨
    ∃ rp n, it.renderProps = some rp ∧ rp.font = fontString n

lemma renderOne_pipelineShaped (measure : ℤ → String → ℚ)
    (fills : List (String × ℚ × ℚ)) (it : TextItem)
    (h : PipelineShaped it) :
    PipelineShaped (renderOne measure fills it).2 := by
  unfold renderOne render
  cases htx : it.text with
  | none => exact h
  | some tx =>
    dsimp only
    by_cases he : tx = ""
    · rw [if_pos he]
      exact h
    · rw [if_neg he]
      refine Or.inr ⟨_, jsRound (it.fontSize.getD 10), rfl, rfl⟩

lemma findByPosition_empty (dpr : ℚ) (p : ℚ × ℚ) :
    ∀ (data : List TextItem), (∀ it ∈ data, PipelineShaped it) →
      findByPosition dpr data p = [] := by
  intro data
  induction data with
  | nil => intro _; rfl
  | cons x rest ih =>
    intro h
    have hx := h x (List.mem_cons_self x rest)
    have hhit : textHit dpr p x = false := by
      rcases hx with hnone | ⟨rp, n, hrp, hf⟩
      · rw [textHit, hnone]
      · exact textHit_font_false dpr p x rp hrp n hf
    rw [findByPosition, List.filter_cons_of_neg (by rw [hhit]; exact
      Bool.false_ne_true)]
    exact ih (fun it hm => h it (List.mem_cons_of_mem x hm))

end TextM

/-- **C7 (amended).** The Grid layer persists caller-space geometry that is
independent of the scale factor, and its query compares the raw unscaled
point against it, so Grid hits do not depend on the scale factor (the
Marker and Line queries likewise take no scale input at all). The Text
layer breaks the claim: it pre-multiplies the query point by the scale
factor although its persisted geometry is caller-space, and its vertical
upper bound compares against the persisted font STRING, so on any data
produced by the Text render pipeline `findByPosition` reports no hit at any
point and any scale factor. -/
theorem findByPosition_scale_C7 :
    (∀ (dprA dprB : ℚ) (st : GridM.GridState) (it : GridM.GridItem),
      (GridM.renderOne dprA st it).2 = (GridM.renderOne dprB st it).2) ∧
    (∀ (data : List GridM.GridItem) (p : ℚ × ℚ),
      GridM.findByPosition data p =
        (data.filter (GridM.gridHit p)).map GridM.strip) ∧
    (∀ (measure : ℤ → String → ℚ) (fills : List (String × ℚ × ℚ))
      (it : TextM.TextItem), TextM.PipelineShaped it →
      TextM.PipelineShaped (TextM.renderOne measure fills it).2) ∧
    (∀ (dpr : ℚ) (data : List TextM.TextItem) (p : ℚ × ℚ),
      (∀ it ∈ data, TextM.PipelineShaped it) →
      TextM.findByPosition dpr data p = []) := by
  refine ⟨?_, ?_, ?_, ?_⟩
  · intro dprA dprB st it
    rw [GridM.renderOne_item, GridM.renderOne_item]
  · intro data p
    rfl
  · intro measure fills it h
    exact TextM.renderOne_pipelineShaped measure fills it h
  · intro dpr data p h
    exact TextM.findByPosition_empty dpr p data h

/-- The measured-width oracle of the C7 scenario: every text measures 20
wide. -/
def c7measure : ℤ → String → ℚ := fun _ _ => 20

/-- The text item of the C7 scenario: "AB" at (100, 100), defaults
otherwise. -/
def c7item : TextM.TextItem := { position := (100, 100), text := some "AB" }

/-- **C7 counterexample.** The rendered "AB" label is filled at
(100, 100) with measured width 20 and font size 10, so its drawn
caller-space box is [100, 120] x [90, 100] and the query point (105, 100)
lies inside it (it is the drawn baseline edge); yet `findByPosition` misses
it at scale factor 1 and at scale factor 2: the vertical upper bound
compares against the font string and is always false. -/
theorem text_scale_C7_cex :
    (TextM.renderOne c7measure [] c7item).1 = [("AB", 100, 100)] ∧
    (TextM.renderOne c7measure [] c7item).2.renderProps =
      some (TextM.TextRenderProps.mk (0, 0) none "black" "10px sans-serif"
        10 (100, 100) "AB" 20) ∧
    TextM.findByPosition 1 [(TextM.renderOne c7measure [] c7item).2]
      ((105 : ℚ), 100) = [] ∧
    TextM.findByPosition 2 [(TextM.renderOne c7measure [] c7item).2]
      ((105 : ℚ), 100) = [] := by
  have hshaped : TextM.PipelineShaped (TextM.renderOne c7measure [] c7item).2 :=
    TextM.renderOne_pipelineShaped c7measure [] c7item (Or.inl rfl)
  have hall : ∀ it ∈ [(TextM.renderOne c7measure [] c7item).2],
      TextM.PipelineShaped it := by
    intro it hm
    rcases List.mem_singleton.mp hm with rfl
    exact hshaped
  have hfs : jsRound ((10 : ℚ)) = 10 := by norm_num [jsRound]
  have hcall : TextM.renderOne c7measure [] c7item =
      TextM.render c7measure [] c7item none none "black" 10 (100, 100)
        (some "AB") := by
    unfold TextM.renderOne c7item
    dsimp only [Option.getD_none]
    rw [hfs]
  refine ⟨?_, ?_, TextM.findByPosition_empty 1 _ _ hall,
    TextM.findByPosition_empty 2 _ _ hall⟩
  · rw [hcall]
    unfold TextM.render
    dsimp only
    rw [if_neg (by decide)]
    dsimp only
    norm_num
  · rw [hcall]
    unfold TextM.render
    dsimp only
    rw [if_neg (by decide)]
    dsimp only [c7item]
    norm_num [c7measure, TextM.fontString]
    rfl

/-- **C7 amended witness.** Grid geometry persisted at scale factors 1 and
2 coincides, and a Text query on a pipeline-shaped singleton reports
nothing at scale factor 2. -/
theorem findByPosition_scale_C7_witness :
    (GridM.renderOne 1 GridM.initState c5item1).2 =
      (GridM.renderOne 2 GridM.initState c5item1).2 ∧
    TextM.findByPosition 2 [TextM.TextItem.mk none none none none
      (100, 100) (some "AB") none] ((105 : ℚ), 95) = [] := by
  have h := findByPosition_scale_C7
  refine ⟨h.1 1 2 GridM.initState c5item1, h.2.2.2 2 _ _ ?_⟩
  intro it hm
  rcases List.mem_singleton.mp hm with rfl
  exact Or.inl rfl

/-- **C9.** Grid, Marker and Text exclude never-rendered items from the
query without failing; the Line query instead dereferences the missing
render properties and throws, so any data list containing a never-rendered
line makes `findByPosition` raise an error instead of excluding the item. -/
theorem findByPosition_unrendered_C9 :
    (∀ (data : List GridM.GridItem) (p : ℚ × ℚ) (it : GridM.GridItem),
      it.renderProps = none →
      GridM.findByPosition (it :: data) p = GridM.findByPosition data p) ∧
    (∀ (T : TrigOracle) (data : List MarkerM.MarkerItem) (p : ℚ × ℚ)
      (it : MarkerM.MarkerItem), it.renderProps = none →
      MarkerM.findByPosition T (it :: data) p =
        MarkerM.findByPosition T data p) ∧
    (∀ (dpr : ℚ) (data : List TextM.TextItem) (p : ℚ × ℚ)
      (it : TextM.TextItem), it.renderProps = none →
      TextM.findByPosition dpr (it :: data) p =
        TextM.findByPosition dpr data p) ∧
    (∀ (strokeTest : List (ℤ × ℤ) → Option ℚ → ℚ × ℚ → Bool)
      (data : List LineM.LineItem) (p : ℚ × ℚ),
      (∃ it ∈ data, it.renderProps = none) →
      ∃ e, LineM.findByPosition strokeTest data p = Except.error e) := by
  refine ⟨?_, ?_, ?_, ?_⟩
  · intro data p it h
    have hf : GridM.gridHit p it = false := by rw [GridM.gridHit, h]
    rw [GridM.findByPosition,
      List.filter_cons_of_neg (by rw [hf]; exact Bool.false_ne_true)]
    rfl
  · intro T data p it h
    have hf : MarkerM.markerHit T p it = false := by
      rw [MarkerM.markerHit, h]
    rw [MarkerM.findByPosition,
      List.filter_cons_of_neg (by rw [hf]; exact Bool.false_ne_true)]
    rfl
  · intro dpr data p it h
    have hf : TextM.textHit dpr p it = false := by rw [TextM.textHit, h]
    rw [TextM.findByPosition,
      List.filter_cons_of_neg (by rw [hf]; exact Bool.false_ne_true)]
    rfl
  · intro strokeTest data p h
    exact LineM.findByPosition_error_of_mem strokeTest p data h

/-- **C9 witness.** Concrete instances: a never-rendered grid item is
excluded without failing, while a singleton list holding a never-rendered
line item makes the Line query throw. -/
theorem findByPosition_unrendered_C9_witness :
    GridM.findByPosition [GridM.GridItem.mk none "c" none (0, 0) none none]
      ((0 : ℚ), 0) = GridM.findByPosition [] ((0 : ℚ), 0) ∧
    (∃ e, LineM.findByPosition (fun _ _ _ => false)
      [LineM.LineItem.mk none [] none none] ((0 : ℚ), 0) =
        Except.error e) := by
  have h := findByPosition_unrendered_C9
  refine ⟨h.1 [] ((0 : ℚ), 0) _ rfl, h.2.2.2 (fun _ _ _ => false)
    [LineM.LineItem.mk none [] none none] ((0 : ℚ), 0) ?_⟩
  exact ⟨LineM.LineItem.mk none [] none none, List.mem_singleton_self _, rfl⟩

/-- Whether `Grid.prototype.render` attaches a rejection handler to the
batch future: it ends in `.catch(() => { ... })`
(src/src/Grid/index.js line 220) and returns nothing. -/
def gridRenderCatches : Bool := true

/-- Whether `Line.prototype.render` attaches a rejection handler: it ends
in `.catch(() => { ... })` (src/src/Line/index.js line 141). -/
def lineRenderCatches : Bool := true

/-- Whether `Text.prototype.render` attaches a rejection handler: it ends
in `.catch(() => { ... })` (src/src/Text/index.js line 216). -/
def textRenderCatches : Bool := true

/-- Whether `Marker.prototype.render` attaches a rejection handler: it
returns `this.scheduler.execute(...)` directly with NO handler
(src/src/Marker/index.js lines 252-273), deliberately handing the raw
future to the caller. -/
def markerRenderCatches : Bool := false

/-- The rejection of a settled batch future that reaches the caller of
`render()`: absorbed (none) when a catch handler was attached inside
render, surfaced otherwise. -/
def surfacedRejection {β ε : Type} (catches : Bool) (o : Sched.Outcome β ε) :
    Option (Sched.RejectReason ε) :=
  if catches then none
  else
    match o with
    | Sched.Outcome.rejected r => some r
    | _ => none

/-- **C8 (amended).** The Grid, Line and Text render methods attach a catch
handler that swallows every rejection of the batch future, including the
`Cancelled` supersession signal; the Marker render method returns the raw
future with no handler, so a superseded marker render surfaces `Cancelled`
to the caller of `render()`. -/
theorem render_swallows_C8 :
    (∀ (β ε : Type) (o : Sched.Outcome β ε),
      surfacedRejection gridRenderCatches o = none) ∧
    (∀ (β ε : Type) (o : Sched.Outcome β ε),
      surfacedRejection lineRenderCatches o = none) ∧
    (∀ (β ε : Type) (o : Sched.Outcome β ε),
      surfacedRejection textRenderCatches o = none) ∧
    (∀ (β ε : Type) (r : Sched.RejectReason ε),
      surfacedRejection markerRenderCatches
        (Sched.Outcome.rejected (β := β) r) = some r) := by
  exact ⟨fun _ _ _ => rfl, fun _ _ _ => rfl, fun _ _ _ => rfl,
    fun _ _ _ => rfl⟩

/-- **C8 counterexample.** Two marker renders in immediate succession: the
superseded first batch future is rejected with `Cancelled`, and because
Marker attaches no handler, the rejection is surfaced to the caller of
`render()` instead of being swallowed — while the same outcome through a
catching layer such as Grid is absorbed. -/
theorem render_swallows_C8_cex :
    (Sched.execute (Sched.execute (Sched.new ℕ ℕ Unit) [1]
      (Sched.okf (fun n => n))) [2]
      (Sched.okf (fun n => n))).promises[0]? =
      some (Sched.Outcome.rejected Sched.RejectReason.cancelled) ∧
    surfacedRejection markerRenderCatches
      ((Sched.Outcome.rejected Sched.RejectReason.cancelled :
        Sched.Outcome ℕ Unit)) = some Sched.RejectReason.cancelled ∧
    surfacedRejection gridRenderCatches
      ((Sched.Outcome.rejected Sched.RejectReason.cancelled :
        Sched.Outcome ℕ Unit)) = none := by
  exact ⟨rfl, rfl, rfl⟩
